import Mathlib

/-
Verification of the geometamaker metadata core: the schema-driven template
synthesizer (geometamaker.py: _get_default, _get_template), the document
validator, and the reconciliation behaviour of MetadataControl.__init__
together with MetadataControl._set_spatial_info.

Schemas and documents are parsed YAML.  Documents are modelled by Doc,
schema values by SVal (a plain value or a nested mapping; YAML mappings in
schema position always parse to SVal.node).  Python exceptions are modelled
by Except SchemaErr.
-/

namespace Geometamaker

/-- A YAML/JSON document value, as produced by parsing a metadata file. -/
inductive Doc where
  | null
  | bool (b : Bool)
  | str (s : String)
  | int (n : Int)
  | num (q : Rat)
  | list (xs : List Doc)
  | obj (kvs : List (String × Doc))

/-- A YAML value appearing in a jsonschema definition: either a plain value
(type names, enum arrays, required arrays, const values) or a nested mapping
of schema keywords and property names to further schema values. -/
inductive SVal where
  | val (d : Doc)
  | node (entries : List (String × SVal))

mutual

/-- Boolean equality on document values. -/
def Doc.beq : Doc → Doc → Bool
  | .null, .null => true
  | .bool a, .bool b => a == b
  | .str a, .str b => a == b
  | .int a, .int b => a == b
  | .num a, .num b => a == b
  | .list xs, .list ys => Doc.beqList xs ys
  | .obj xs, .obj ys => Doc.beqKVs xs ys
  | _, _ => false

/-- Boolean equality on lists of document values. -/
def Doc.beqList : List Doc → List Doc → Bool
  | [], [] => true
  | x :: xs, y :: ys => Doc.beq x y && Doc.beqList xs ys
  | _, _ => false

/-- Boolean equality on key-value lists of document values. -/
def Doc.beqKVs : List (String × Doc) → List (String × Doc) → Bool
  | [], [] => true
  | (k, v) :: xs, (l, w) :: ys => k == l && Doc.beq v w && Doc.beqKVs xs ys
  | _, _ => false

end

mutual

theorem Doc.beq_iff_eq : (a b : Doc) → (Doc.beq a b = true ↔ a = b)
  | .null, .null => by simp [Doc.beq]
  | .null, .bool _ | .null, .str _ | .null, .int _ | .null, .num _
  | .null, .list _ | .null, .obj _ => by simp [Doc.beq]
  | .bool _, .null | .bool _, .str _ | .bool _, .int _ | .bool _, .num _
  | .bool _, .list _ | .bool _, .obj _ => by simp [Doc.beq]
  | .str _, .null | .str _, .bool _ | .str _, .int _ | .str _, .num _
  | .str _, .list _ | .str _, .obj _ => by simp [Doc.beq]
  | .int _, .null | .int _, .bool _ | .int _, .str _ | .int _, .num _
  | .int _, .list _ | .int _, .obj _ => by simp [Doc.beq]
  | .num _, .null | .num _, .bool _ | .num _, .str _ | .num _, .int _
  | .num _, .list _ | .num _, .obj _ => by simp [Doc.beq]
  | .list _, .null | .list _, .bool _ | .list _, .str _ | .list _, .int _
  | .list _, .num _ | .list _, .obj _ => by simp [Doc.beq]
  | .obj _, .null | .obj _, .bool _ | .obj _, .str _ | .obj _, .int _
  | .obj _, .num _ | .obj _, .list _ => by simp [Doc.beq]
  | .bool a, .bool b => by simp [Doc.beq]
  | .str a, .str b => by simp [Doc.beq]
  | .int a, .int b => by simp [Doc.beq]
  | .num a, .num b => by simp [Doc.beq]
  | .list xs, .list ys => by simp [Doc.beq, Doc.beqList_iff_eq xs ys]
  | .obj xs, .obj ys => by simp [Doc.beq, Doc.beqKVs_iff_eq xs ys]

theorem Doc.beqList_iff_eq : (xs ys : List Doc) → (Doc.beqList xs ys = true ↔ xs = ys)
  | [], [] => by simp [Doc.beqList]
  | [], _ :: _ => by simp [Doc.beqList]
  | _ :: _, [] => by simp [Doc.beqList]
  | x :: xs, y :: ys => by
      simp [Doc.beqList, Doc.beq_iff_eq x y, Doc.beqList_iff_eq xs ys]

theorem Doc.beqKVs_iff_eq : (xs ys : List (String × Doc)) → (Doc.beqKVs xs ys = true ↔ xs = ys)
  | [], [] => by simp [Doc.beqKVs]
  | [], _ :: _ => by simp [Doc.beqKVs]
  | _ :: _, [] => by simp [Doc.beqKVs]
  | (k, v) :: xs, (l, w) :: ys => by
      simp [Doc.beqKVs, Doc.beq_iff_eq v w, Doc.beqKVs_iff_eq xs ys, and_assoc]

end

instance : DecidableEq Doc := fun a b =>
  if h : Doc.beq a b = true then isTrue ((Doc.beq_iff_eq a b).mp h)
  else isFalse (fun he => h ((Doc.beq_iff_eq a b).mpr he))

mutual

/-- Boolean equality on schema values. -/
def SVal.beq : SVal → SVal → Bool
  | .val a, .val b => a = b
  | .node xs, .node ys => SVal.beqKVs xs ys
  | _, _ => false

/-- Boolean equality on key-value lists of schema values. -/
def SVal.beqKVs : List (String × SVal) → List (String × SVal) → Bool
  | [], [] => true
  | (k, v) :: xs, (l, w) :: ys => k == l && SVal.beq v w && SVal.beqKVs xs ys
  | _, _ => false

end

mutual

theorem SVal.sbeq_iff_eq : (a b : SVal) → (SVal.beq a b = true ↔ a = b)
  | .val _, .node _ | .node _, .val _ => by simp [SVal.beq]
  | .val a, .val b => by simp [SVal.beq]
  | .node xs, .node ys => by simp [SVal.beq, SVal.sbeqKVs_iff_eq xs ys]

theorem SVal.sbeqKVs_iff_eq : (xs ys : List (String × SVal)) → (SVal.beqKVs xs ys = true ↔ xs = ys)
  | [], [] => by simp [SVal.beqKVs]
  | [], _ :: _ => by simp [SVal.beqKVs]
  | _ :: _, [] => by simp [SVal.beqKVs]
  | (k, v) :: xs, (l, w) :: ys => by
      simp [SVal.beqKVs, SVal.sbeq_iff_eq v w, SVal.sbeqKVs_iff_eq xs ys, and_assoc]

end

instance : DecidableEq SVal := fun a b =>
  if h : SVal.beq a b = true then isTrue ((SVal.sbeq_iff_eq a b).mp h)
  else isFalse (fun he => h ((SVal.sbeq_iff_eq a b).mpr he))

/-- Errors modelling the Python exceptions that the schema-interpreting code
can raise.  The first two constructors are the failures the specification
calls SchemaDefinitionError; the others model IndexError, AttributeError and
TypeError slips on malformed schema values. -/
inductive SchemaErr where
  /-- KeyError from a missing mapping key, such as a schema with no
  properties, items or required entry where one is demanded. -/
  | missingKey (k : String)
  /-- The KeyError raised explicitly by _get_default when an item has no
  enum, no type and no reference. -/
  | noTypeNoRef
  /-- The KeyError raised by the default_values table lookup when a type or
  reference name is not recognized. -/
  | unknownTypeRef
  /-- The IndexError raised by taking the first element of an empty enum. -/
  | emptyEnum
  /-- AttributeError or TypeError from iterating the items of a value that
  is not a mapping. -/
  | notADict
  /-- TypeError from a membership test on a value that is not a container. -/
  | notIterable
  /-- Exhaustion of the explicit recursion-depth bound of the model; the
  Python recursion carries no such bound, so every result other than this
  one is the value the Python code computes. -/
  | outOfFuel
  deriving DecidableEq

instance {ε α : Type} [DecidableEq ε] [DecidableEq α] : DecidableEq (Except ε α) :=
  fun a b =>
    match a, b with
    | .ok x, .ok y => decidable_of_iff (x = y) (by simp)
    | .error e, .error f => decidable_of_iff (e = f) (by simp)
    | .ok _, .error _ => isFalse (by simp)
    | .error _, .ok _ => isFalse (by simp)

/-- Lookup of a key in a schema value: a key is only present when the value
is a mapping, mirroring a membership test on a parsed YAML mapping. -/
def lookupS (s : SVal) (k : String) : Option SVal :=
  match s with
  | .node es => es.lookup k
  | .val _ => none

/-- Lookup of a key in a document object. -/
def Doc.lookupKey (d : Doc) (k : String) : Option Doc :=
  match d with
  | .obj kvs => kvs.lookup k
  | _ => none

/-- The default_values table of _get_default (geometamaker.py lines 70-80),
keyed by the type or reference name: an unrecognized name raises KeyError. -/
def defaultValues (t : SVal) : Except SchemaErr Doc :=
  match t with
  | .val (.str s) =>
    if s = "string" then .ok (.str "")
    else if s = "int" then .ok (.int 0)
    else if s = "integer" then .ok (.int 0)
    else if s = "number" then .ok (.num 0)
    else if s = "boolean" then .ok (.bool false)
    else if s = "#/definitions/date_or_datetime_string" then .ok (.str "")
    else if s = "#/definitions/i18n_string" then .ok (.str "")
    else if s = "#/definitions/i18n_array" then .ok (.list [])
    else if s = "#/definitions/any_type" then .ok (.str "")
    else .error .unknownTypeRef
  | _ => .error .unknownTypeRef

/-- Taking the first element of the enum entry, modelling fixed_values[0]:
the first element of a list, the first character of a string (Python string
indexing), ok none when the subscript raises KeyError — a mapping, whose
keys here are strings, subscripted with the integer 0 — which the enclosing
except KeyError catches, and an error for the uncaught IndexError of an
empty list or empty string and the uncaught TypeError of a
non-subscriptable value. -/
def enumFirst (e : SVal) : Except SchemaErr (Option Doc) :=
  match e with
  | .val (.list []) => .error .emptyEnum
  | .val (.list (v :: _)) => .ok (some v)
  | .val (.str s) => if s = "" then .error .emptyEnum else .ok (some (.str (s.take 1)))
  | .val (.obj _) => .ok none
  | .node _ => .ok none
  | _ => .error .notIterable

/-- The code of _get_default after the enum block (geometamaker.py lines
90-102), reached both when the enum entry is absent and when its subscript
raised a caught KeyError: the type entry, then the reference entry, is
resolved through the default_values table; with neither present the
explicit KeyError is raised. -/
def typeRefDefault (item : SVal) : Except SchemaErr Doc :=
  match lookupS item "type" with
  | some t => defaultValues t
  | none =>
    match lookupS item "$ref" with
    | some t => defaultValues t
    | none => .error .noTypeNoRef

/-- Model of _get_default (geometamaker.py lines 52-102): an enum entry is
used first; the KeyError raised by subscripting a mapping-valued enum is
caught by the same except KeyError as a missing enum entry, and both fall
through to the type/reference resolution; the IndexError and TypeError of
other failing subscripts propagate. -/
def getDefault (item : SVal) : Except SchemaErr Doc :=
  match lookupS item "enum" with
  | some e =>
    match enumFirst e with
    | .ok (some v) => .ok v
    | .ok none => typeRefDefault item
    | .error err => .error err
  | none => typeRefDefault item

/-- Membership of a property name in a required entry, modelling the Python
expression prop in schema[required-key]: list membership for a list, key
membership for a mapping, substring containment for a string, and a
TypeError on non-container values. -/
def requiredContains (r : SVal) (p : String) : Except SchemaErr Bool :=
  match r with
  | .val (.list vs) => .ok (vs.contains (.str p))
  | .val (.str s) => .ok (decide (p.toList <:+: s.toList))
  | .val (.obj kvs) => .ok (kvs.any (fun kv => kv.1 = p))
  | .node es => .ok (es.any (fun kv => kv.1 = p))
  | _ => .error .notIterable

mutual

/-- Conversion of a schema value to the document value it denotes when it is
assigned into a document, such as the version const. -/
def svalToDoc : SVal → Doc
  | .val d => d
  | .node es => .obj (svalToDocKVs es)

/-- Conversion of a schema mapping's entries to document object entries. -/
def svalToDocKVs : List (String × SVal) → List (String × Doc)
  | [] => []
  | (k, v) :: rest => (k, svalToDoc v) :: svalToDocKVs rest

end


/-- The synthetic schema that _get_template substitutes for a property whose
schema carries patternProperties: an object schema with the single required
property named default, whose schema is the pattern schema. -/
def exampleSch (inner : SVal) : SVal :=
  .node [("type", .val (.str "object")),
         ("required", .val (.list [.str "default"])),
         ("properties", .node [("default", inner)])]

/-! The template synthesizer.  The recursion of _get_template is modelled
with an explicit recursion-depth bound, consumed once per recursive call of
_get_template itself; the property loops are structural on the property
lists and take the bounded recursive call as a function argument f. -/

/-- Synthesis of the children of an anyOf mapping as sibling properties. -/
def templateAnyOf (f : SVal → Except SchemaErr Doc) :
    List (String × SVal) → Except SchemaErr (List (String × Doc))
  | [] => .ok []
  | (p, s) :: rest =>
    match f s with
    | .error e => .error e
    | .ok v =>
      match templateAnyOf f rest with
      | .ok res => .ok ((p, v) :: res)
      | .error e => .error e

/-- Second half of one property's synthesis: when the property schema's
properties mapping itself contains an anyOf key, the children of anyOf are
synthesized as sibling keys; otherwise the schema is synthesized normally. -/
def templateEntryTail (f : SVal → Except SchemaErr Doc) (sch2 : SVal) :
    Except SchemaErr Doc :=
  match lookupS sch2 "properties" with
  | some (.node ps) =>
    match ps.lookup "anyOf" with
    | some (.node aes) =>
      match templateAnyOf f aes with
      | .ok tes => .ok (.obj tes)
      | .error e => .error e
    | some (.val _) => .error .notADict
    | none => f sch2
  | _ => f sch2

/-- Synthesis of one property's schema: a schema carrying patternProperties
is first replaced by the synthetic default-keyed object schema. -/
def templateEntry (f : SVal → Except SchemaErr Doc) (sch : SVal) :
    Except SchemaErr Doc :=
  match lookupS sch "patternProperties" with
  | some (.node pes) =>
    match pes.lookup "^.*" with
    | some inner => templateEntryTail f (exampleSch inner)
    | none => .error (.missingKey "^.*")
  | some (.val _) => .error .notADict
  | none => templateEntryTail f sch

/-- The property loop of _get_template's object branch: a property is
skipped when a required entry exists and does not contain its name. -/
def templateProps (f : SVal → Except SchemaErr Doc) (reqd : Option SVal) :
    List (String × SVal) → Except SchemaErr (List (String × Doc))
  | [] => .ok []
  | (prop, sch) :: rest =>
    match reqd with
    | some r =>
      match requiredContains r prop with
      | .error e => .error e
      | .ok b =>
        if b then
          match templateEntry f sch with
          | .error e => .error e
          | .ok v =>
            match templateProps f (some r) rest with
            | .ok res => .ok ((prop, v) :: res)
            | .error e => .error e
        else templateProps f (some r) rest
    | none =>
      match templateEntry f sch with
      | .error e => .error e
      | .ok v =>
        match templateProps f none rest with
        | .ok res => .ok ((prop, v) :: res)
        | .error e => .error e

/-- The inline-properties array branch of _get_template: the single array
element maps each property listed in the required entry to its synthesis; a
missing required entry raises KeyError at the first property. -/
def arrayInline (f : SVal → Except SchemaErr Doc) (reqd : Option SVal) :
    List (String × SVal) → Except SchemaErr (List (String × Doc))
  | [] => .ok []
  | (prop, sch) :: rest =>
    match reqd with
    | none => .error (.missingKey "required")
    | some r =>
      match requiredContains r prop with
      | .error e => .error e
      | .ok b =>
        if b then
          match f sch with
          | .error e => .error e
          | .ok v =>
            match arrayInline f (some r) rest with
            | .ok res => .ok ((prop, v) :: res)
            | .error e => .error e
        else arrayInline f (some r) rest

/-- Model of _get_template (geometamaker.py lines 105-161): builds a minimal
document containing only the required properties of a jsonschema definition.
An object schema synthesizes its required properties, an array schema a
one-element list, and any other schema a leaf default. -/
def getTemplate : Nat → SVal → Except SchemaErr Doc
  | 0, _ => .error .outOfFuel
  | fuel + 1, schema =>
    if lookupS schema "type" = some (.val (.str "object")) then
      match lookupS schema "properties" with
      | some (.node props) =>
        match templateProps (getTemplate fuel) (lookupS schema "required") props with
        | .ok tes => .ok (.obj tes)
        | .error e => .error e
      | some (.val _) => .error .notADict
      | none => .error (.missingKey "properties")
    else if lookupS schema "type" = some (.val (.str "array")) then
      match lookupS schema "properties" with
      | some (.node props) =>
        match arrayInline (getTemplate fuel) (lookupS schema "required") props with
        | .ok es => .ok (.list [.obj es])
        | .error e => .error e
      | some (.val _) => .error .notADict
      | none =>
        match lookupS schema "items" with
        | some it =>
          match getTemplate fuel it with
          | .ok v => .ok (.list [v])
          | .error e => .error e
        | none => .error (.missingKey "items")
    else getDefault schema

/-- Document is a string. -/
def Doc.isStr : Doc → Bool
  | .str _ => true
  | _ => false

/-- Document is an integer. -/
def Doc.isInt : Doc → Bool
  | .int _ => true
  | _ => false

/-- Document is a number (an integer also conforms to number). -/
def Doc.isNumber : Doc → Bool
  | .int _ => true
  | .num _ => true
  | _ => false

/-- Document is a boolean. -/
def Doc.isBool : Doc → Bool
  | .bool _ => true
  | _ => false

/-- Document is a sequence. -/
def Doc.isList : Doc → Bool
  | .list _ => true
  | _ => false

/-! The validator.  The code delegates validation to the external jsonschema
library, which is not part of this repository, so the validator is modelled
from the specification (section 4.4): structural schema validation
(required-property presence, type conformance, enum membership) over the
normalized node tree, where the normalization of wildcard-keyed objects,
disjunction markers and inline-array properties is the one of section 4.1,
identical to the normalization the synthesizer applies. -/

/-- Validation of the anyOf children as independently required siblings. -/
def valAnyOf (v : Doc → SVal → Bool) (kvs : List (String × Doc)) :
    List (String × SVal) → Bool
  | [] => true
  | (p, s) :: rest =>
    (match kvs.lookup p with
     | some w => v w s
     | none => false) && valAnyOf v kvs rest

/-- Second half of property validation: when the property schema's
properties mapping contains an anyOf key, the children of anyOf are treated
as independently required sibling properties, as in synthesis. -/
def valChildTail (v : Doc → SVal → Bool) (d : Doc) (sch2 : SVal) : Bool :=
  match lookupS sch2 "properties" with
  | some (.node ps) =>
    match ps.lookup "anyOf" with
    | some (.node aes) =>
      (match d with
       | .obj kvs => valAnyOf v kvs aes
       | _ => false)
    | some (.val _) => false
    | none => v d sch2
  | _ => v d sch2

/-- Validation of a document value against a property schema: a schema
carrying patternProperties is normalized to the synthetic default-keyed
object schema first, exactly as in synthesis. -/
def valChild (v : Doc → SVal → Bool) (d : Doc) (sch : SVal) : Bool :=
  match lookupS sch "patternProperties" with
  | some (.node pes) =>
    match pes.lookup "^.*" with
    | some inner => valChildTail v d (exampleSch inner)
    | none => false
  | some (.val _) => false
  | none => valChildTail v d sch

/-- Validation of a document object's entries against a properties mapping:
each entry whose key names a property is validated against that property's
schema with the property-position normalization applied. -/
def valEntries (v : Doc → SVal → Bool) (kvs : List (String × Doc))
    (props : List (String × SVal)) : Bool :=
  match kvs with
  | [] => true
  | (k, d) :: rest =>
    (match props.lookup k with
     | some sch => valChild v d sch
     | none => true) && valEntries v rest props

/-- Validation of array elements against an items schema. -/
def valItems (v : Doc → SVal → Bool) (xs : List Doc) (it : SVal) : Bool :=
  match xs with
  | [] => true
  | x :: rest => v x it && valItems v rest it

/-- Validation of one inline-array element's entries: an entry whose key is
among the inline properties and listed as required is validated against that
property's schema. -/
def valInlineKvs (v : Doc → SVal → Bool) (kvs : List (String × Doc))
    (props : List (String × SVal)) (rs : List Doc) : Bool :=
  match kvs with
  | [] => true
  | (k, d) :: rest =>
    (match props.lookup k with
     | some sch => if rs.contains (.str k) then v d sch else true
     | none => true) && valInlineKvs v rest props rs

/-- Validation of array elements against the normalized inline-properties
item schema: each element is an object carrying every required name, whose
entries are validated against the inline properties restricted to the
required subset. -/
def valInlineElems (v : Doc → SVal → Bool) (xs : List Doc)
    (props : List (String × SVal)) (rs : List Doc) : Bool :=
  match xs with
  | [] => true
  | x :: rest =>
    (match x with
     | .obj kvs =>
       rs.all (fun rv => match rv with
         | .str r => kvs.any (fun kv => kv.1 = r)
         | _ => false) &&
       valInlineKvs v kvs props rs
     | _ => false) && valInlineElems v rest props rs

/-- Modelled from the spec: the Validator of section 4.4, with the same
recursion-depth bound as the synthesizer; a document never fuel-exhausts at
a depth at which synthesis succeeded. -/
def validateDoc : Nat → Doc → SVal → Bool
  | 0, _, _ => false
  | fuel + 1, d, schema =>
    if lookupS schema "type" = some (.val (.str "object")) then
      match d with
      | .obj kvs =>
        (match lookupS schema "required" with
         | none => true
         | some (.val (.list rs)) =>
           rs.all (fun rv => match rv with
             | .str r => kvs.any (fun kv => kv.1 = r)
             | _ => false)
         | some _ => false) &&
        (match lookupS schema "properties" with
         | some (.node props) => valEntries (validateDoc fuel) kvs props
         | some (.val _) => false
         | none => true)
      | _ => false
    else if lookupS schema "type" = some (.val (.str "array")) then
      match d with
      | .list xs =>
        match lookupS schema "properties" with
        | some (.node props) =>
          (match lookupS schema "required" with
           | some (.val (.list rs)) => valInlineElems (validateDoc fuel) xs props rs
           | _ => false)
        | some (.val _) => false
        | none =>
          match lookupS schema "items" with
          | some it => valItems (validateDoc fuel) xs it
          | none => true
      | _ => false
    else
      match lookupS schema "enum" with
      | some (.val (.list vs)) => vs.contains d
      | some _ => false
      | none =>
        match lookupS schema "type" with
        | some (.val (.str "string")) => d.isStr
        | some (.val (.str "integer")) => d.isInt
        | some (.val (.str "number")) => d.isNumber
        | some (.val (.str "boolean")) => d.isBool
        | some _ => false
        | none =>
          match lookupS schema "$ref" with
          | some (.val (.str "#/definitions/date_or_datetime_string")) => d.isStr
          | some (.val (.str "#/definitions/i18n_string")) => d.isStr
          | some (.val (.str "#/definitions/i18n_array")) => d.isList
          | some (.val (.str "#/definitions/any_type")) => true
          | some _ => false
          | none => false

/-! Well-formedness of a schema: the shape stipulated by the data model of
the specification (section 3) with required names drawn from the declared
properties.  Nodes whose synthesis necessarily raises are unconstrained. -/

/-- Well-formedness of the properties visited by the object-branch loop. -/
def wfProps (w : SVal → Bool) (reqd : Option SVal) :
    List (String × SVal) → Bool
  | [] => true
  | (prop, sch) :: rest =>
    (match reqd with
     | some r =>
       match requiredContains r prop with
       | .ok true => w sch
       | .ok false => true
       | .error _ => true
     | none => w sch) && wfProps w reqd rest

/-- Well-formedness of the properties visited by the inline-array loop. -/
def wfInline (w : SVal → Bool) (reqd : Option SVal) :
    List (String × SVal) → Bool
  | [] => true
  | (prop, sch) :: rest =>
    (match reqd with
     | none => true
     | some r =>
       match requiredContains r prop with
       | .ok true => w sch
       | _ => true) && wfInline w reqd rest

/-- Well-formedness of the anyOf children. -/
def wfAnyOf (w : SVal → Bool) : List (String × SVal) → Bool
  | [] => true
  | (_, s) :: rest => w s && wfAnyOf w rest

/-- Well-formedness after the patternProperties normalization: anyOf
children are well-formed schemas with unique names. -/
def wfEntryTail (w : SVal → Bool) (sch2 : SVal) : Bool :=
  match lookupS sch2 "properties" with
  | some (.node ps) =>
    match ps.lookup "anyOf" with
    | some (.node aes) =>
      decide ((aes.map Prod.fst).Nodup) && wfAnyOf w aes
    | some (.val _) => true
    | none => w sch2
  | _ => w sch2

/-- Well-formedness of one visited property schema, following the
patternProperties normalization of the synthesizer. -/
def wfEntry (w : SVal → Bool) (sch : SVal) : Bool :=
  match lookupS sch "patternProperties" with
  | some (.node pes) =>
    match pes.lookup "^.*" with
    | some inner => wfEntryTail w (exampleSch inner)
    | none => true
  | some (.val _) => true
  | none => wfEntryTail w sch

/-- Well-formedness of a schema: property names are unique, a required
entry is a list of declared property names, enums are value lists and
scalar type tags are the four primitive names.  The depth bound mirrors the
synthesizer's. -/
def schemaWF : Nat → SVal → Bool
  | 0, _ => false
  | fuel + 1, schema =>
    if lookupS schema "type" = some (.val (.str "object")) then
      match lookupS schema "properties" with
      | some (.node props) =>
        decide ((props.map Prod.fst).Nodup) &&
        (match lookupS schema "required" with
         | none => true
         | some (.val (.list rs)) =>
           rs.all (fun rv => match rv with
             | .str r => decide (props.lookup r ≠ none)
             | _ => false)
         | some _ => false) &&
        wfProps (fun sch => wfEntry (schemaWF fuel) sch) (lookupS schema "required") props
      | _ => false
    else if lookupS schema "type" = some (.val (.str "array")) then
      match lookupS schema "properties" with
      | some (.node props) =>
        decide ((props.map Prod.fst).Nodup) &&
        (match lookupS schema "required" with
         | some (.val (.list rs)) =>
           rs.all (fun rv => match rv with
             | .str r => decide (props.lookup r ≠ none)
             | _ => false)
         | _ => false) &&
        wfInline (schemaWF fuel) (lookupS schema "required") props
      | some (.val _) => false
      | none =>
        match lookupS schema "items" with
        | some it => schemaWF fuel it
        | none => true
    else
      match lookupS schema "enum" with
      | some (.val (.list _)) => true
      | some _ => false
      | none =>
        match lookupS schema "type" with
        | some (.val (.str t)) =>
          decide (t = "string" ∨ t = "integer" ∨ t = "number" ∨ t = "boolean")
        | some _ => false
        | none =>
          match lookupS schema "$ref" with
          | some (.val (.str u)) =>
            decide (u = "#/definitions/date_or_datetime_string" ∨
              u = "#/definitions/i18n_string" ∨
              u = "#/definitions/i18n_array" ∨
              u = "#/definitions/any_type")
          | some _ => true
          | none => true

/-! Reconciliation: MetadataControl.__init__ (geometamaker.py lines 177-222)
together with _set_spatial_info (lines 497-583), as a pure function of the
probed dataset facts and the outcome of loading any pre-existing document. -/

/-- Replacement or insertion of a key in object entries, modelling Python
dict item assignment: an existing key keeps its position, a new key is
appended. -/
def setEntries (kvs : List (String × Doc)) (k : String) (v : Doc) :
    List (String × Doc) :=
  match kvs with
  | [] => [(k, v)]
  | (k', v') :: rest =>
    if k' = k then (k', v) :: rest else (k', v') :: setEntries rest k v

/-- Subscript read of a document, modelling d[k]: KeyError when the key is
missing, TypeError when the value is not a mapping. -/
def Doc.getKey (d : Doc) (k : String) : Except SchemaErr Doc :=
  match d with
  | .obj kvs =>
    match kvs.lookup k with
    | some v => .ok v
    | none => .error (.missingKey k)
  | _ => .error .notADict

/-- Subscript assignment of a document, modelling d[k] = v. -/
def Doc.setKey (d : Doc) (k : String) (v : Doc) : Except SchemaErr Doc :=
  match d with
  | .obj kvs => .ok (.obj (setEntries kvs k v))
  | _ => .error .notADict

/-- Nested assignment d[k1][k2] = v on a document. -/
def setPath2 (d : Doc) (k1 k2 : String) (v : Doc) : Except SchemaErr Doc := do
  let m ← d.getKey k1
  let m2 ← m.setKey k2 v
  d.setKey k1 m2

/-- Nested assignment d[k1][k2][k3] = v on a document. -/
def setPath3 (d : Doc) (k1 k2 k3 : String) (v : Doc) : Except SchemaErr Doc := do
  let m ← d.getKey k1
  let m2 ← m.getKey k2
  let m3 ← m2.setKey k3 v
  let m4 ← m.setKey k2 m3
  d.setKey k1 m4

/-- A field of a vector layer as reported by the OGR layer schema: a name
and the integer OGR field type code. -/
structure VField where
  name : String
  fieldType : Nat
  deriving DecidableEq

/-- A raster band as reported by GDAL: the integer GDAL data type code and
the band description string. -/
structure RBand where
  dataType : Nat
  description : String
  deriving DecidableEq

/-- The facts _set_spatial_info reads for a vector dataset. -/
structure VectorProbe where
  geomname : String
  fields : List VField
  bbox : List Rat
  epsg : Option String
  deriving DecidableEq

/-- The facts _set_spatial_info reads for a raster dataset. -/
structure RasterProbe where
  bands : List RBand
  bbox : List Rat
  epsg : Option String
  deriving DecidableEq

/-- The dataset type detection outcome: get_gis_type raising ValueError for
a non-GIS file, or returning the vector or raster type with the facts the
subsequent probing reads. -/
inductive GisProbe where
  | unknown
  | vector (v : VectorProbe)
  | raster (r : RasterProbe)
  deriving DecidableEq

/-- All effects read during document creation: the dataset probe plus the
generated identifier (uuid.uuid4) and datestamp (datetime.utcnow). -/
structure FreshProbe where
  gis : GisProbe
  identifier : String
  datestamp : String
  deriving DecidableEq

/-- The OGR_MCF_ATTR_TYPE_MAP of geometamaker.py lines 44-49, keyed by the
osgeo.ogr field type constants OFTInteger = 0, OFTReal = 2, OFTString = 4
and OFTInteger64 = 12. -/
def ogrMcfAttrTypeMap (t : Nat) : Option String :=
  if t = 0 then some "integer"
  else if t = 12 then some "integer"
  else if t = 2 then some "number"
  else if t = 4 then some "string"
  else none

/-- One vector attribute entry as built by _set_spatial_info: the type key
is omitted when the OGR type is missing from the map. -/
def mkVectorAttr (f : VField) : Doc :=
  .obj ([("name", .str f.name)] ++
    (match ogrMcfAttrTypeMap f.fieldType with
     | some t => [("type", Doc.str t)]
     | none => []) ++
    [("units", .str ""), ("title", .str ""), ("abstract", .str "")])

/-- One raster attribute entry as built by _set_spatial_info: integer for
GDAL data types below 6, number otherwise. -/
def mkRasterAttr (b : RBand) : Doc :=
  .obj [("name", .str ""),
        ("type", .str (if b.dataType < 6 then "integer" else "number")),
        ("units", .str ""), ("title", .str ""),
        ("abstract", .str b.description)]

/-- The geometry type string derived from the OGR geometry type name by the
sequence of substring tests in _set_spatial_info; later tests override
earlier ones. -/
def geomtypeOf (geomname : String) : String :=
  let g := ""
  let g := if "Point".toList <:+: geomname.toList then "point" else g
  let g := if "Polygon".toList <:+: geomname.toList then "surface" else g
  let g := if "Line".toList <:+: geomname.toList then "curve" else g
  let g := if "Collection".toList <:+: geomname.toList then "complex" else g
  g

/-- The spatial extent value assigned to identification.extents.spatial: a
one-element list holding the bounding box and the EPSG authority code,
which is None when the spatial reference carries no authority. -/
def spatialExtent (bbox : List Rat) (epsg : Option String) : Doc :=
  .list [.obj [("bbox", .list (bbox.map Doc.num)),
               ("crs", match epsg with
                       | some c => .str c
                       | none => .null)]]

/-- Model of _set_spatial_info: populates the document with the properties
probed from the dataset, by dataset type.  A non-GIS dataset only sets the
hierarchy level.  The attributes entry is only assigned when at least one
field or band exists. -/
def setSpatialInfo (gis : GisProbe) (mcf : Doc) : Except SchemaErr Doc :=
  match gis with
  | .unknown => setPath2 mcf "metadata" "hierarchylevel" (.str "nonGeographicDataset")
  | .vector v =>
    setPath2 mcf "metadata" "hierarchylevel" (.str "dataset") >>= fun m1 =>
    setPath2 m1 "spatial" "datatype" (.str "vector") >>= fun m2 =>
    setPath2 m2 "content_info" "type" (.str "coverage") >>= fun m3 =>
    setPath2 m3 "spatial" "geomtype" (.str (geomtypeOf v.geomname)) >>= fun m4 =>
    (if (v.fields.map mkVectorAttr).length ≠ 0 then
       setPath2 m4 "content_info" "attributes" (.list (v.fields.map mkVectorAttr))
     else pure m4) >>= fun m5 =>
    setPath3 m5 "identification" "extents" "spatial" (spatialExtent v.bbox v.epsg)
  | .raster r =>
    setPath2 mcf "metadata" "hierarchylevel" (.str "dataset") >>= fun m1 =>
    setPath2 m1 "spatial" "datatype" (.str "grid") >>= fun m2 =>
    setPath2 m2 "spatial" "geomtype" (.str "surface") >>= fun m3 =>
    setPath2 m3 "content_info" "type" (.str "image") >>= fun m4 =>
    (if (r.bands.map mkRasterAttr).length ≠ 0 then
       setPath2 m4 "content_info" "attributes" (.list (r.bands.map mkRasterAttr))
     else pure m4) >>= fun m5 =>
    setPath3 m5 "identification" "extents" "spatial" (spatialExtent r.bbox r.epsg)

/-- The outcome of loading a pre-existing sidecar document with
pygeometa.core.read_mcf: a parse failure (MCFReadError or AttributeError)
or the parsed document. -/
inductive LoadResult where
  | parseFailure
  | parsed (d : Doc)
  deriving DecidableEq

/-- The schema constant read for the version assignment: the lookup chain
MCF_SCHEMA[properties][mcf][properties][version][const]. -/
def mcfVersionConst (schema : SVal) : Except SchemaErr Doc :=
  match lookupS schema "properties" with
  | none => .error (.missingKey "properties")
  | some p1 =>
    match lookupS p1 "mcf" with
    | none => .error (.missingKey "mcf")
    | some p2 =>
      match lookupS p2 "properties" with
      | none => .error (.missingKey "properties")
      | some p3 =>
        match lookupS p3 "version" with
        | none => .error (.missingKey "version")
        | some p4 =>
          match lookupS p4 "const" with
          | none => .error (.missingKey "const")
          | some p5 => .ok (svalToDoc p5)

/-- The fresh-document branch of MetadataControl.__init__: synthesize the
template, set the generated identifier, populate the dataset facts and set
the datestamp. -/
def freshMcf (fuel : Nat) (schema : SVal) (fresh : FreshProbe) :
    Except SchemaErr Doc :=
  getTemplate fuel schema >>= fun t =>
  setPath2 t "metadata" "identifier" (.str fresh.identifier) >>= fun t1 =>
  setSpatialInfo fresh.gis t1 >>= fun t2 =>
  setPath2 t2 "metadata" "datestamp" (.str fresh.datestamp)

/-- Model of MetadataControl.__init__ with a source dataset path: when a
sidecar document exists, parses and validates, it is adopted as is;
otherwise (no document, a parse failure, or a validation failure, all of
which are caught and logged) the fresh document is built.  Finally the
version entry is set from the schema constant.  Validation in the code is
jsonschema.validate against MCF_SCHEMA, modelled from the spec by
validateDoc. -/
def reconcile (fuel : Nat) (schema : SVal) (existing : Option LoadResult)
    (fresh : FreshProbe) : Except SchemaErr Doc :=
  let mcf0 : Option Doc :=
    match existing with
    | some (.parsed d) => if validateDoc fuel d schema then some d else none
    | some .parseFailure => none
    | none => none
  (match mcf0 with
   | some d => pure d
   | none => freshMcf fuel schema fresh) >>= fun m =>
  mcfVersionConst schema >>= fun ver =>
  setPath2 m "mcf" "version" ver

/-- The errors the specification's taxonomy calls SchemaDefinitionError:
the two KeyError failures of _get_default. -/
def SchemaErr.isSchemaDef : SchemaErr → Bool
  | .noTypeNoRef => true
  | .unknownTypeRef => true
  | _ => false

/-- A small schema with the version constant and the keys reconciliation
writes in the fresh branch for a non-GIS dataset. -/
def miniSchema : SVal := .node [("type", .val (.str "object")),
  ("required", .val (.list [.str "mcf", .str "metadata"])),
  ("properties", .node [
    ("mcf", .node [("type", .val (.str "object")),
      ("properties", .node [("version", .node [("type", .val (.str "string")),
        ("const", .val (.str "1.0"))])])]),
    ("metadata", .node [("type", .val (.str "object")),
      ("properties", .node [("identifier", .node [("type", .val (.str "string"))])])])])]

/-- A probe of a non-GIS dataset with one generated identifier. -/
def probeIdA : FreshProbe := ⟨.unknown, "id-a", "2022-01-01"⟩

/-- The same probed dataset facts with a different generated identifier. -/
def probeIdB : FreshProbe := ⟨.unknown, "id-b", "2022-01-01"⟩

/-- A document that validates against miniSchema. -/
def validMiniDoc : Doc := .obj [
  ("mcf", .obj [("version", .str "0.9")]),
  ("metadata", .obj [("identifier", .str "old-id")])]

/-- An existing valid document carrying dataset-intrinsic values (an old
spatial extent, a vector datatype and an integer-typed attribute titled
Elevation) together with descriptive values. -/
def cexExisting : Doc := .obj [
  ("mcf", .obj [("version", .str "0.9")]),
  ("metadata", .obj [("identifier", .str "old-id")]),
  ("identification", .obj [("title", .str "My Title"),
     ("extents", .obj [("spatial", .str "OLD")])]),
  ("content_info", .obj [("attributes", .list [.obj [("name", .str ""),
     ("type", .str "integer"), ("units", .str "m"),
     ("title", .str "Elevation"), ("abstract", .str "")]])]),
  ("spatial", .obj [("datatype", .str "vector")])]

/-- A fresh raster probe whose intrinsic facts (grid datatype, band of GDAL
data type 6, i.e. number, a new extent) differ from cexExisting's. -/
def cexRaster : RasterProbe := ⟨[⟨6, "band one"⟩], [], some "4326"⟩

/-- The fresh probe wrapping cexRaster. -/
def cexFresh : FreshProbe := ⟨.raster cexRaster, "new-uuid", "2022-02-02"⟩

/-- A schema carrying every section the raster fresh branch writes. -/
def fullSchema : SVal := .node [("type", .val (.str "object")),
  ("required", .val (.list [.str "mcf", .str "metadata", .str "spatial",
    .str "content_info", .str "identification"])),
  ("properties", .node [
    ("mcf", .node [("type", .val (.str "object")),
      ("properties", .node [("version", .node [("type", .val (.str "string")),
        ("const", .val (.str "1.0"))])])]),
    ("metadata", .node [("type", .val (.str "object")),
      ("properties", .node [("identifier", .node [("type", .val (.str "string"))])])]),
    ("spatial", .node [("type", .val (.str "object")),
      ("properties", .node [("datatype", .node [("type", .val (.str "string"))]),
                            ("geomtype", .node [("type", .val (.str "string"))])])]),
    ("content_info", .node [("type", .val (.str "object")),
      ("properties", .node [("type", .node [("type", .val (.str "string"))])])]),
    ("identification", .node [("type", .val (.str "object")),
      ("properties", .node [("extents", .node [("type", .val (.str "object")),
         ("properties", .node [("spatial", .node [("type", .val (.str "string"))])])])])])])]

/-! Generic lemmas about association-list lookups, Except binds and the
document update operations. -/

section LookupLemmas

variable {β : Type}

theorem lookup_mem {es : List (String × β)} {k : String} {v : β}
    (h : es.lookup k = some v) : (k, v) ∈ es := by
  induction es with
  | nil => simp [List.lookup] at h
  | cons hd tl ih =>
    obtain ⟨k', v'⟩ := hd
    simp only [List.lookup] at h
    cases hbe : (k == k') with
    | true =>
      rw [hbe] at h
      simp only [Option.some.injEq] at h
      subst h
      have hk := eq_of_beq hbe
      subst hk
      exact List.mem_cons_self _ _
    | false =>
      rw [hbe] at h
      exact List.mem_cons_of_mem _ (ih h)

theorem mem_lookup_of_nodup {es : List (String × β)} {k : String} {v : β}
    (hnd : (es.map Prod.fst).Nodup) (h : (k, v) ∈ es) : es.lookup k = some v := by
  induction es with
  | nil => simp at h
  | cons hd tl ih =>
    obtain ⟨k', v'⟩ := hd
    simp only [List.map_cons, List.nodup_cons] at hnd
    rcases List.mem_cons.mp h with h1 | h2
    · rw [Prod.mk.injEq] at h1
      obtain ⟨rfl, rfl⟩ := h1
      simp [List.lookup]
    · have hne : k ≠ k' := by
        rintro rfl
        exact hnd.1 (List.mem_map.mpr ⟨(k, v), h2, rfl⟩)
      simp only [List.lookup]
      rw [show (k == k') = false from beq_eq_false_iff_ne.mpr hne]
      exact ih hnd.2 h2

theorem lookup_map_fst_mem {es : List (String × β)} {k : String}
    (h : k ∈ es.map Prod.fst) : ∃ v, es.lookup k = some v := by
  induction es with
  | nil => simp at h
  | cons hd tl ih =>
    obtain ⟨k', v'⟩ := hd
    simp only [List.map_cons, List.mem_cons] at h
    by_cases hk : k = k'
    · subst hk
      exact ⟨v', by simp [List.lookup]⟩
    · rcases h with h1 | h2
      · exact absurd h1 hk
      · obtain ⟨v, hv⟩ := ih h2
        refine ⟨v, ?_⟩
        simp only [List.lookup]
        rw [show (k == k') = false from beq_eq_false_iff_ne.mpr hk]
        exact hv

end LookupLemmas

theorem bind_ok {α β : Type} {x : Except SchemaErr α} {f : α → Except SchemaErr β}
    {b : β} : (x >>= f) = .ok b ↔ ∃ a, x = .ok a ∧ f a = .ok b := by
  cases x <;> simp [Bind.bind, Except.bind]

theorem setEntries_lookup_self (kvs : List (String × Doc)) (k : String) (v : Doc) :
    (setEntries kvs k v).lookup k = some v := by
  induction kvs with
  | nil => simp [setEntries, List.lookup]
  | cons hd tl ih =>
    obtain ⟨k', v'⟩ := hd
    by_cases hk : k' = k
    · subst hk
      simp [setEntries, List.lookup]
    · simp only [setEntries, if_neg hk, List.lookup]
      rw [show (k == k') = false from beq_eq_false_iff_ne.mpr (Ne.symm hk)]
      exact ih

theorem setEntries_lookup_ne {kvs : List (String × Doc)} {key k : String}
    (hne : k ≠ key) (v : Doc) :
    (setEntries kvs key v).lookup k = kvs.lookup k := by
  induction kvs with
  | nil =>
    simp only [setEntries, List.lookup]
    rw [show (k == key) = false from beq_eq_false_iff_ne.mpr hne]
  | cons hd tl ih =>
    obtain ⟨k', v'⟩ := hd
    by_cases hk : k' = key
    · subst hk
      simp only [setEntries, if_pos rfl, List.lookup]
      rw [show (k == k') = false from beq_eq_false_iff_ne.mpr hne]
    · simp only [setEntries, if_neg hk, List.lookup]
      cases hbe : (k == k') with
      | true => rfl
      | false => exact ih

theorem setPath2_lookupKey_ne {m m' : Doc} {a b k : String} {v : Doc}
    (h : setPath2 m a b v = .ok m') (hk : k ≠ a) :
    m'.lookupKey k = m.lookupKey k := by
  unfold setPath2 at h
  rw [bind_ok] at h
  obtain ⟨mid, hmid, h⟩ := h
  rw [bind_ok] at h
  obtain ⟨m2, hm2, h⟩ := h
  unfold Doc.setKey at h
  cases m with
  | obj kvs =>
    simp only [Except.ok.injEq] at h
    subst h
    simp [Doc.lookupKey, setEntries_lookup_ne hk]
  | null | bool _ | str _ | int _ | num _ | list _ => simp at h

theorem setPath2_lookupKey_self {m m' : Doc} {a b : String} {v : Doc}
    (h : setPath2 m a b v = .ok m') :
    ∃ kvs2, m.lookupKey a = some (.obj kvs2) ∧
      m'.lookupKey a = some (.obj (setEntries kvs2 b v)) := by
  unfold setPath2 at h
  rw [bind_ok] at h
  obtain ⟨mid, hmid, h⟩ := h
  rw [bind_ok] at h
  obtain ⟨m2, hm2, h⟩ := h
  cases m with
  | obj kvs =>
    cases mid with
    | obj kvs2 =>
      simp only [Doc.setKey, Except.ok.injEq] at hm2 h
      subst hm2
      subst h
      cases hlk : kvs.lookup a with
      | some w =>
        simp [Doc.getKey, hlk] at hmid
        subst hmid
        exact ⟨kvs2, by simp [Doc.lookupKey, hlk], by
          simp [Doc.lookupKey, setEntries_lookup_self]⟩
      | none => simp [Doc.getKey, hlk] at hmid
    | null | bool _ | str _ | int _ | num _ | list _ => simp [Doc.setKey] at hm2
  | null | bool _ | str _ | int _ | num _ | list _ => simp [Doc.getKey] at hmid

theorem setPath3_lookupKey_ne {m m' : Doc} {a b c k : String} {v : Doc}
    (h : setPath3 m a b c v = .ok m') (hk : k ≠ a) :
    m'.lookupKey k = m.lookupKey k := by
  unfold setPath3 at h
  rw [bind_ok] at h
  obtain ⟨m1, hm1, h⟩ := h
  rw [bind_ok] at h
  obtain ⟨m2, hm2, h⟩ := h
  rw [bind_ok] at h
  obtain ⟨m3, hm3, h⟩ := h
  rw [bind_ok] at h
  obtain ⟨m4, hm4, h⟩ := h
  unfold Doc.setKey at h
  cases m with
  | obj kvs =>
    simp only [Except.ok.injEq] at h
    subst h
    simp [Doc.lookupKey, setEntries_lookup_ne hk]
  | null | bool _ | str _ | int _ | num _ | list _ => simp at h

/-! Claim C6: leaf default resolution. -/

/-- C6: _get_default resolves a leaf with enumerated values to the first
declared value; being a pure function, repeated calls return the same
value.  Otherwise it resolves the declared type, or failing that the
declared reference, to its canonical zero-value: string, date-or-datetime
string, localized string and untyped-any to the empty string, integer to 0,
number to 0.0, boolean to false, and localized list to the empty
sequence. -/
theorem getDefault_default_resolution (es : List (String × SVal)) :
    (∀ v vs, es.lookup "enum" = some (.val (.list (v :: vs))) →
      getDefault (.node es) = .ok v) ∧
    (es.lookup "enum" = none →
      (es.lookup "type" = some (.val (.str "string")) →
        getDefault (.node es) = .ok (.str "")) ∧
      (es.lookup "type" = some (.val (.str "integer")) →
        getDefault (.node es) = .ok (.int 0)) ∧
      (es.lookup "type" = some (.val (.str "number")) →
        getDefault (.node es) = .ok (.num 0)) ∧
      (es.lookup "type" = some (.val (.str "boolean")) →
        getDefault (.node es) = .ok (.bool false)) ∧
      (es.lookup "type" = none →
        (es.lookup "$ref" = some (.val (.str "#/definitions/date_or_datetime_string")) →
          getDefault (.node es) = .ok (.str "")) ∧
        (es.lookup "$ref" = some (.val (.str "#/definitions/i18n_string")) →
          getDefault (.node es) = .ok (.str "")) ∧
        (es.lookup "$ref" = some (.val (.str "#/definitions/i18n_array")) →
          getDefault (.node es) = .ok (.list [])) ∧
        (es.lookup "$ref" = some (.val (.str "#/definitions/any_type")) →
          getDefault (.node es) = .ok (.str "")))) := by
  constructor
  · intro v vs h
    simp only [getDefault, lookupS, h]
    rfl
  · intro he
    refine ⟨?_, ?_, ?_, ?_, ?_⟩ <;> intro ht
    · simp only [getDefault, typeRefDefault, lookupS, he, ht]
      rfl
    · simp only [getDefault, typeRefDefault, lookupS, he, ht]
      rfl
    · simp only [getDefault, typeRefDefault, lookupS, he, ht]
      rfl
    · simp only [getDefault, typeRefDefault, lookupS, he, ht]
      rfl
    · refine ⟨?_, ?_, ?_, ?_⟩ <;> intro hr <;>
        · simp only [getDefault, typeRefDefault, lookupS, he, ht, hr]
          rfl

/-- Witness for C6 at concrete leaves: an enum leaf resolves to its first
value and an integer leaf to 0. -/
theorem getDefault_default_resolution_witness :
    getDefault (.node [("enum", SVal.val (.list [.str "EPSG", .str "other"]))]) =
      .ok (.str "EPSG") ∧
    getDefault (.node [("type", SVal.val (.str "integer"))]) = .ok (.int 0) := by
  constructor
  · exact (getDefault_default_resolution _).1 (.str "EPSG") [.str "other"] (by decide)
  · exact (((getDefault_default_resolution _).2 (by decide)).2.1 (by decide))

/-! Claim C7: classification of default-resolution failures. -/

theorem enumFirst_not_schemaDef {e : SVal} {err : SchemaErr}
    (h : enumFirst e = .error err) : err.isSchemaDef = false := by
  cases e with
  | val d =>
    cases d with
    | list xs =>
      cases xs with
      | nil =>
        simp only [enumFirst, Except.error.injEq] at h
        subst h
        rfl
      | cons v vs => simp [enumFirst] at h
    | str s =>
      by_cases hs : s = ""
      · simp only [enumFirst, if_pos hs, Except.error.injEq] at h
        subst h
        rfl
      · simp [enumFirst, if_neg hs] at h
    | null =>
      simp only [enumFirst, Except.error.injEq] at h
      subst h
      rfl
    | bool b =>
      simp only [enumFirst, Except.error.injEq] at h
      subst h
      rfl
    | int n =>
      simp only [enumFirst, Except.error.injEq] at h
      subst h
      rfl
    | num q =>
      simp only [enumFirst, Except.error.injEq] at h
      subst h
      rfl
    | obj kvs => simp [enumFirst] at h
  | node es => simp [enumFirst] at h

theorem enumFirst_emptyEnum_iff {e : SVal} :
    enumFirst e = .error .emptyEnum ↔
      (e = .val (.list []) ∨ e = .val (.str "")) := by
  cases e with
  | val d =>
    cases d with
    | list xs => cases xs <;> simp [enumFirst]
    | str s => by_cases hs : s = "" <;> simp [enumFirst, hs]
    | null | bool _ | int _ | num _ | obj _ => simp [enumFirst]
  | node es => simp [enumFirst]

theorem enumFirst_ok_iff {e : SVal} :
    (∃ v, enumFirst e = .ok (some v)) ↔
      ((∃ v vs, e = .val (.list (v :: vs))) ∨
       (∃ s, e = .val (.str s) ∧ s ≠ "")) := by
  cases e with
  | val d =>
    cases d with
    | list xs => cases xs <;> simp [enumFirst]
    | str s => by_cases hs : s = "" <;> simp [enumFirst, hs]
    | null | bool _ | int _ | num _ | obj _ => simp [enumFirst]
  | node es => simp [enumFirst]

theorem enumFirst_fallthrough_iff {e : SVal} :
    enumFirst e = .ok none ↔
      ((∃ kvs, e = .val (.obj kvs)) ∨ (∃ es2, e = .node es2)) := by
  cases e with
  | val d =>
    cases d with
    | list xs => cases xs <;> simp [enumFirst]
    | str s => by_cases hs : s = "" <;> simp [enumFirst, hs]
    | null | bool _ | int _ | num _ | obj _ => simp [enumFirst]
  | node es => simp [enumFirst]

/-- C4: when the existing document fails to parse or load, the failure is
recovered locally — reconciliation behaves identically to having no prior
document, and the result is the freshly synthesized template with the
probed facts embedded and the version constant set; no exception derived
from the parse failure can appear in the result. -/
theorem reconcile_parse_failure_as_absent (fuel : Nat) (schema : SVal)
    (fresh : FreshProbe) :
    reconcile fuel schema (some .parseFailure) fresh =
      reconcile fuel schema none fresh ∧
    reconcile fuel schema none fresh =
      (freshMcf fuel schema fresh >>= fun m =>
        mcfVersionConst schema >>= fun ver => setPath2 m "mcf" "version" ver) := by
  constructor <;> rfl

/-- C9: an existing document that parses but fails schema validation is
treated exactly as an absent document: the result is built from the fresh
template and probed facts and carries none of the invalid document's
values. -/
theorem reconcile_invalid_as_absent (fuel : Nat) (schema : SVal) (d : Doc)
    (fresh : FreshProbe) (h : validateDoc fuel d schema = false) :
    reconcile fuel schema (some (.parsed d)) fresh =
      reconcile fuel schema none fresh := by
  unfold reconcile
  simp [h]

/-- Witness for C9 at a concrete invalid document: a bare string cannot
validate against the object schema and is discarded. -/
theorem reconcile_invalid_as_absent_witness :
    validateDoc 9 (.str "junk") miniSchema = false ∧
    reconcile 9 miniSchema (some (.parsed (.str "junk"))) probeIdA =
      reconcile 9 miniSchema none probeIdA :=
  ⟨by decide, reconcile_invalid_as_absent 9 miniSchema (.str "junk") probeIdA (by decide)⟩

/-- Counterexample to C5 as stated: two reconciliations over the same
probed dataset facts and datestamp, with no existing document, produce
different documents, because the generated identifier (uuid4) differs
between calls; reconciliation is not a function of the probed description
and the existing document alone. -/
theorem reconcile_identifier_nondeterminism_cex :
    probeIdA.gis = probeIdB.gis ∧ probeIdA.datestamp = probeIdB.datestamp ∧
    reconcile 9 miniSchema none probeIdA ≠ reconcile 9 miniSchema none probeIdB := by
  decide

/-- C5 (amended): reconciliation is a pure function of the probed facts,
the generated identifier and datestamp, and the load outcome; moreover,
when the existing document is present, parseable and valid, the result does
not depend on the probe, the identifier or the datestamp at all. -/
theorem reconcile_deterministic_for_valid_existing (fuel : Nat) (schema : SVal)
    (d : Doc) (f1 f2 : FreshProbe) (h : validateDoc fuel d schema = true) :
    reconcile fuel schema (some (.parsed d)) f1 =
      reconcile fuel schema (some (.parsed d)) f2 := by
  unfold reconcile
  simp [h]

/-- Witness for C5's amended theorem at a concrete valid document. -/
theorem reconcile_deterministic_for_valid_existing_witness :
    validateDoc 9 validMiniDoc miniSchema = true ∧
    reconcile 9 miniSchema (some (.parsed validMiniDoc)) probeIdA =
      reconcile 9 miniSchema (some (.parsed validMiniDoc)) probeIdB :=
  ⟨by decide, reconcile_deterministic_for_valid_existing 9 miniSchema validMiniDoc
    probeIdA probeIdB (by decide)⟩

/-- C2 (amended): when the existing document is present, parseable and
valid, the result is the existing document with only the mcf section
changed — its version entry is set to the schema's version constant.  Every
other top-level property, including all dataset-intrinsic ones (spatial
extent, attributes, source information), is carried forward unchanged; no
value from the fresh probe is written. -/
theorem reconcile_existing_frame (fuel : Nat) (schema : SVal) (d r : Doc)
    (fresh : FreshProbe) (hv : validateDoc fuel d schema = true)
    (hr : reconcile fuel schema (some (.parsed d)) fresh = .ok r) :
    (∀ k, k ≠ "mcf" → r.lookupKey k = d.lookupKey k) ∧
    (∃ ver kvs2, mcfVersionConst schema = .ok ver ∧
      d.lookupKey "mcf" = some (.obj kvs2) ∧
      r.lookupKey "mcf" = some (.obj (setEntries kvs2 "version" ver))) := by
  unfold reconcile at hr
  simp only [hv, if_true] at hr
  rw [show ((pure d : Except SchemaErr Doc) >>= fun m =>
      mcfVersionConst schema >>= fun ver => setPath2 m "mcf" "version" ver) =
      (mcfVersionConst schema >>= fun ver => setPath2 d "mcf" "version" ver)
    from rfl] at hr
  rw [bind_ok] at hr
  obtain ⟨ver, hver, hset⟩ := hr
  refine ⟨fun k hk => setPath2_lookupKey_ne hset hk, ?_⟩
  obtain ⟨kvs2, hd, hr2⟩ := setPath2_lookupKey_self hset
  exact ⟨ver, kvs2, hver, hd, hr2⟩

/-- Counterexample to C2 as stated: with a present, parseable and valid
existing document, the code does not overwrite the dataset-intrinsic subset
with freshly probed values — the old spatial extent, datatype and
attributes are all carried forward although the probe reports different
ones; only mcf.version is set. -/
theorem reconcile_no_intrinsic_refresh_cex :
    validateDoc 9 cexExisting miniSchema = true ∧
    reconcile 9 miniSchema (some (.parsed cexExisting)) cexFresh = .ok (.obj [
      ("mcf", .obj [("version", .str "1.0")]),
      ("metadata", .obj [("identifier", .str "old-id")]),
      ("identification", .obj [("title", .str "My Title"),
         ("extents", .obj [("spatial", .str "OLD")])]),
      ("content_info", .obj [("attributes", .list [.obj [("name", .str ""),
         ("type", .str "integer"), ("units", .str "m"),
         ("title", .str "Elevation"), ("abstract", .str "")]])]),
      ("spatial", .obj [("datatype", .str "vector")])]) ∧
    spatialExtent cexRaster.bbox cexRaster.epsg ≠ .str "OLD" ∧
    (mkRasterAttr ⟨6, "band one"⟩).lookupKey "type" = some (.str "number") := by
  decide

/-- The raster branch of _set_spatial_info assigns the band attribute list
(one entry per band, built by mkRasterAttr) to content_info.attributes
whenever at least one band exists, and nothing later overwrites it. -/
theorem setSpatialInfo_raster_content {rb : RasterProbe} {m m' : Doc}
    (hb : rb.bands ≠ []) (h : setSpatialInfo (.raster rb) m = .ok m') :
    ∃ ci, m'.lookupKey "content_info" = some (.obj ci) ∧
      ci.lookup "attributes" = some (.list (rb.bands.map mkRasterAttr)) := by
  unfold setSpatialInfo at h
  rw [bind_ok] at h
  obtain ⟨m1, h1, h⟩ := h
  rw [bind_ok] at h
  obtain ⟨m2, h2, h⟩ := h
  rw [bind_ok] at h
  obtain ⟨m3, h3, h⟩ := h
  rw [bind_ok] at h
  obtain ⟨m4, h4, h⟩ := h
  have hlen : (rb.bands.map mkRasterAttr).length ≠ 0 := by
    simpa using hb
  rw [if_pos hlen] at h
  rw [bind_ok] at h
  obtain ⟨m5, h5, h6⟩ := h
  obtain ⟨kvs2, hm4ci, hm5ci⟩ := setPath2_lookupKey_self h5
  refine ⟨setEntries kvs2 "attributes" (.list (rb.bands.map mkRasterAttr)), ?_, ?_⟩
  · rw [setPath3_lookupKey_ne h6 (by decide), hm5ci]
  · exact setEntries_lookup_self _ _ _

/-- Counterexample to C3 as stated: the existing document's band entry at
index 0 (name "", type integer, units m, title Elevation) and the fresh
band at index 0 (GDAL data type 6, whose probed entry has type number)
share the identity key but differ in their intrinsic subset, so the claim
predicts default descriptive fields in the merged entry; the code instead
carries the prior entry over wholly, title Elevation, units m, and even
the stale intrinsic type integer included. -/
theorem reconcile_no_band_merge_cex :
    validateDoc 9 cexExisting miniSchema = true ∧
    (reconcile 9 miniSchema (some (.parsed cexExisting)) cexFresh).map
      (fun m => m.lookupKey "content_info") = .ok (some (.obj
        [("attributes", .list [.obj [("name", .str ""),
          ("type", .str "integer"), ("units", .str "m"),
          ("title", .str "Elevation"), ("abstract", .str "")]])])) ∧
    (mkRasterAttr ⟨6, "band one"⟩).lookupKey "type" = some (.str "number") ∧
    (mkRasterAttr ⟨6, "band one"⟩).lookupKey "title" = some (.str "") ∧
    (mkRasterAttr ⟨6, "band one"⟩).lookupKey "units" = some (.str "") := by
  decide

/-- C3 (amended): the code performs no per-field or per-band merge.  With a
present, parseable and valid existing document the whole content_info
section — intrinsic and descriptive attribute values alike — is carried
over from the existing document, whatever the fresh probe reports.  Freshly
probed attribute entries, whose descriptive fields (title, units, name) are
the empty-string defaults, appear only when no usable existing document
exists. -/
theorem reconcile_attribute_merge_behaviour (fuel : Nat) (schema : SVal) :
    (∀ d r fresh, validateDoc fuel d schema = true →
      reconcile fuel schema (some (.parsed d)) fresh = .ok r →
      r.lookupKey "content_info" = d.lookupKey "content_info") ∧
    (∀ (rb : RasterProbe) ident ds r, rb.bands ≠ [] →
      reconcile fuel schema none ⟨.raster rb, ident, ds⟩ = .ok r →
      ∃ ci, r.lookupKey "content_info" = some (.obj ci) ∧
        ci.lookup "attributes" = some (.list (rb.bands.map mkRasterAttr)) ∧
        ∀ b ∈ rb.bands,
          (mkRasterAttr b).lookupKey "title" = some (.str "") ∧
          (mkRasterAttr b).lookupKey "units" = some (.str "") ∧
          (mkRasterAttr b).lookupKey "name" = some (.str "")) := by
  constructor
  · intro d r fresh hv hr
    unfold reconcile at hr
    simp only [hv, if_true] at hr
    rw [show ((pure d : Except SchemaErr Doc) >>= fun m =>
        mcfVersionConst schema >>= fun ver => setPath2 m "mcf" "version" ver) =
        (mcfVersionConst schema >>= fun ver => setPath2 d "mcf" "version" ver)
      from rfl] at hr
    rw [bind_ok] at hr
    obtain ⟨ver, hver, hset⟩ := hr
    exact setPath2_lookupKey_ne hset (by decide)
  · intro rb ident ds r hb hr
    simp only [reconcile] at hr
    rw [bind_ok] at hr
    obtain ⟨m, hm, hr⟩ := hr
    rw [bind_ok] at hr
    obtain ⟨ver, hver, hset⟩ := hr
    unfold freshMcf at hm
    rw [bind_ok] at hm
    obtain ⟨t, ht, hm⟩ := hm
    rw [bind_ok] at hm
    obtain ⟨t1, hid, hm⟩ := hm
    rw [bind_ok] at hm
    obtain ⟨t2, hsp, hds⟩ := hm
    obtain ⟨ci, hci, hattrs⟩ := setSpatialInfo_raster_content hb hsp
    refine ⟨ci, ?_, hattrs, ?_⟩
    · rw [setPath2_lookupKey_ne hset (by decide),
        setPath2_lookupKey_ne hds (by decide), hci]
    · intro b _
      refine ⟨?_, ?_, ?_⟩ <;> simp [mkRasterAttr, Doc.lookupKey, List.lookup]

/-- Witness for C2's amended theorem: reconciling a valid existing document
only rewrites mcf.version; the metadata section is carried unchanged. -/
theorem reconcile_existing_frame_witness :
    reconcile 9 miniSchema (some (.parsed validMiniDoc)) probeIdA = .ok (.obj [
      ("mcf", .obj [("version", .str "1.0")]),
      ("metadata", .obj [("identifier", .str "old-id")])]) ∧
    (Doc.obj [("mcf", .obj [("version", .str "1.0")]),
      ("metadata", .obj [("identifier", .str "old-id")])]).lookupKey "metadata" =
      validMiniDoc.lookupKey "metadata" := by
  refine ⟨by decide, ?_⟩
  exact (reconcile_existing_frame 9 miniSchema validMiniDoc _ probeIdA
    (by decide) (by decide)).1 "metadata" (by decide)

/-- Witness for C3's amended theorem: reconciling with no existing document
over a raster probe writes the freshly built attribute list, whose
descriptive fields are the empty-string defaults. -/
theorem reconcile_attribute_merge_behaviour_witness :
    reconcile 9 fullSchema none ⟨.raster cexRaster, "u1", "d1"⟩ = .ok (.obj [
      ("mcf", .obj [("version", .str "1.0")]),
      ("metadata", .obj [("identifier", .str "u1"),
        ("hierarchylevel", .str "dataset"), ("datestamp", .str "d1")]),
      ("spatial", .obj [("datatype", .str "grid"), ("geomtype", .str "surface")]),
      ("content_info", .obj [("type", .str "image"),
        ("attributes", .list [.obj [("name", .str ""), ("type", .str "number"),
          ("units", .str ""), ("title", .str ""),
          ("abstract", .str "band one")]])]),
      ("identification", .obj [("extents", .obj [("spatial",
        .list [.obj [("bbox", .list []), ("crs", .str "4326")]])])])]) ∧
    (∃ ci, (Doc.obj [
      ("mcf", .obj [("version", .str "1.0")]),
      ("metadata", .obj [("identifier", .str "u1"),
        ("hierarchylevel", .str "dataset"), ("datestamp", .str "d1")]),
      ("spatial", .obj [("datatype", .str "grid"), ("geomtype", .str "surface")]),
      ("content_info", .obj [("type", .str "image"),
        ("attributes", .list [.obj [("name", .str ""), ("type", .str "number"),
          ("units", .str ""), ("title", .str ""),
          ("abstract", .str "band one")]])]),
      ("identification", .obj [("extents", .obj [("spatial",
        .list [.obj [("bbox", .list []), ("crs", .str "4326")]])])])]).lookupKey
        "content_info" = some (.obj ci) ∧
      ci.lookup "attributes" = some (.list (cexRaster.bands.map mkRasterAttr)) ∧
      ∀ b ∈ cexRaster.bands,
        (mkRasterAttr b).lookupKey "title" = some (.str "") ∧
        (mkRasterAttr b).lookupKey "units" = some (.str "") ∧
        (mkRasterAttr b).lookupKey "name" = some (.str "")) :=
  ⟨by decide, (reconcile_attribute_merge_behaviour 9 fullSchema).2 cexRaster
    "u1" "d1" _ (by decide) (by decide)⟩

/-! Claims C8 and C10: the shape of synthesized arrays and objects. -/

theorem templateProps_none {f : SVal → Except SchemaErr Doc}
    {props : List (String × SVal)} {tes : List (String × Doc)}
    (h : templateProps f none props = .ok tes) :
    tes.map Prod.fst = props.map Prod.fst ∧
    ∀ k v, (k, v) ∈ tes → ∃ sch, (k, sch) ∈ props ∧ templateEntry f sch = .ok v := by
  induction props generalizing tes with
  | nil =>
    simp only [templateProps, Except.ok.injEq] at h
    subst h
    simp
  | cons hd rest ih =>
    obtain ⟨prop, sch⟩ := hd
    simp only [templateProps] at h
    cases hE : templateEntry f sch with
    | error e => rw [hE] at h; simp at h
    | ok v =>
      rw [hE] at h
      cases hR : templateProps f none rest with
      | error e => rw [hR] at h; simp at h
      | ok res =>
        rw [hR] at h
        simp only [Except.ok.injEq] at h
        subst h
        obtain ⟨ihk, ihm⟩ := ih hR
        constructor
        · simp [ihk]
        · intro k w hw
          rcases List.mem_cons.mp hw with h1 | h2
          · rw [Prod.mk.injEq] at h1
            obtain ⟨rfl, rfl⟩ := h1
            exact ⟨sch, List.mem_cons_self _ _, hE⟩
          · obtain ⟨sch2, hmem, hE2⟩ := ihm _ _ h2
            exact ⟨sch2, List.mem_cons_of_mem _ hmem, hE2⟩

theorem templateProps_required_list {f : SVal → Except SchemaErr Doc}
    {rs : List Doc} {props : List (String × SVal)} {tes : List (String × Doc)}
    (h : templateProps f (some (.val (.list rs))) props = .ok tes) :
    tes.map Prod.fst =
      (props.filter (fun pr => rs.contains (Doc.str pr.1))).map Prod.fst ∧
    ∀ k v, (k, v) ∈ tes → ∃ sch, (k, sch) ∈ props ∧
      rs.contains (Doc.str k) = true ∧ templateEntry f sch = .ok v := by
  induction props generalizing tes with
  | nil =>
    simp only [templateProps, Except.ok.injEq] at h
    subst h
    simp
  | cons hd rest ih =>
    obtain ⟨prop, sch⟩ := hd
    simp only [templateProps, requiredContains] at h
    cases hb : rs.contains (Doc.str prop) with
    | false =>
      rw [hb] at h
      simp only [Bool.false_eq_true, if_neg] at h
      obtain ⟨ihk, ihm⟩ := ih h
      constructor
      · rw [List.filter_cons_of_neg (by simpa using hb)]
        exact ihk
      · intro k w hw
        obtain ⟨sch2, hmem, hrs, hE2⟩ := ihm _ _ hw
        exact ⟨sch2, List.mem_cons_of_mem _ hmem, hrs, hE2⟩
    | true =>
      rw [hb] at h
      simp only [if_pos] at h
      cases hE : templateEntry f sch with
      | error e => rw [hE] at h; simp at h
      | ok v =>
        rw [hE] at h
        cases hR : templateProps f (some (.val (.list rs))) rest with
        | error e => rw [hR] at h; simp at h
        | ok res =>
          rw [hR] at h
          simp only [Except.ok.injEq] at h
          subst h
          obtain ⟨ihk, ihm⟩ := ih hR
          constructor
          · rw [List.filter_cons_of_pos (by simpa using hb)]
            simp [ihk]
          · intro k w hw
            rcases List.mem_cons.mp hw with h1 | h2
            · rw [Prod.mk.injEq] at h1
              obtain ⟨rfl, rfl⟩ := h1
              exact ⟨sch, List.mem_cons_self _ _, hb, hE⟩
            · obtain ⟨sch2, hmem, hrs, hE2⟩ := ihm _ _ h2
              exact ⟨sch2, List.mem_cons_of_mem _ hmem, hrs, hE2⟩

theorem arrayInline_mem {f : SVal → Except SchemaErr Doc} {reqd : Option SVal}
    {props : List (String × SVal)} {es : List (String × Doc)}
    (h : arrayInline f reqd props = .ok es) :
    ∀ k v, (k, v) ∈ es → ∃ sch, (k, sch) ∈ props ∧ f sch = .ok v := by
  induction props generalizing es with
  | nil =>
    simp only [arrayInline, Except.ok.injEq] at h
    subst h
    simp
  | cons hd rest ih =>
    obtain ⟨prop, sch⟩ := hd
    cases reqd with
    | none => simp [arrayInline] at h
    | some r =>
      simp only [arrayInline] at h
      cases hC : requiredContains r prop with
      | error e => rw [hC] at h; simp at h
      | ok b =>
        rw [hC] at h
        cases b with
        | false =>
          simp only [Bool.false_eq_true, if_neg] at h
          intro k w hw
          obtain ⟨sch2, hmem, hE2⟩ := ih h _ _ hw
          exact ⟨sch2, List.mem_cons_of_mem _ hmem, hE2⟩
        | true =>
          simp only [if_pos] at h
          cases hE : f sch with
          | error e => rw [hE] at h; simp at h
          | ok v =>
            rw [hE] at h
            cases hR : arrayInline f (some r) rest with
            | error e => rw [hR] at h; simp at h
            | ok res =>
              rw [hR] at h
              simp only [Except.ok.injEq] at h
              subst h
              intro k w hw
              rcases List.mem_cons.mp hw with h1 | h2
              · rw [Prod.mk.injEq] at h1
                obtain ⟨rfl, rfl⟩ := h1
                exact ⟨sch, List.mem_cons_self _ _, hE⟩
              · obtain ⟨sch2, hmem, hE2⟩ := ih hR _ _ h2
                exact ⟨sch2, List.mem_cons_of_mem _ hmem, hE2⟩

theorem arrayInline_required_keys {f : SVal → Except SchemaErr Doc}
    {rs : List Doc} {props : List (String × SVal)} {es : List (String × Doc)}
    (h : arrayInline f (some (.val (.list rs))) props = .ok es) :
    es.map Prod.fst =
      (props.filter (fun pr => rs.contains (Doc.str pr.1))).map Prod.fst := by
  induction props generalizing es with
  | nil =>
    simp only [arrayInline, Except.ok.injEq] at h
    subst h
    simp
  | cons hd rest ih =>
    obtain ⟨prop, sch⟩ := hd
    simp only [arrayInline, requiredContains] at h
    cases hb : rs.contains (Doc.str prop) with
    | false =>
      rw [hb] at h
      simp only [Bool.false_eq_true, if_neg] at h
      rw [List.filter_cons_of_neg (by simpa using hb)]
      exact ih h
    | true =>
      rw [hb] at h
      simp only [if_pos] at h
      cases hE : f sch with
      | error e => rw [hE] at h; simp at h
      | ok v =>
        rw [hE] at h
        cases hR : arrayInline f (some (.val (.list rs))) rest with
        | error e => rw [hR] at h; simp at h
        | ok res =>
          rw [hR] at h
          simp only [Except.ok.injEq] at h
          subst h
          rw [List.filter_cons_of_pos (by simpa using hb)]
          simp [ih hR]

/-- C8: an array schema always synthesizes a one-element sequence.  In the
inline-properties variant the single element is an object mapping exactly
the inline properties listed as required to their recursive syntheses; in
the normal variant the single element is the synthesis of the items
schema. -/
theorem getTemplate_array_shape (fuel : Nat) (schema : SVal) (d : Doc)
    (htype : lookupS schema "type" = some (.val (.str "array")))
    (hok : getTemplate (fuel + 1) schema = .ok d) :
    ∃ elem, d = .list [elem] ∧
      (∀ props, lookupS schema "properties" = some (.node props) →
        ∃ es, elem = .obj es ∧
          (∀ k v, (k, v) ∈ es → ∃ sch, (k, sch) ∈ props ∧
            getTemplate fuel sch = .ok v) ∧
          (∀ rs, lookupS schema "required" = some (.val (.list rs)) →
            es.map Prod.fst =
              (props.filter (fun pr => rs.contains (Doc.str pr.1))).map Prod.fst)) ∧
      (lookupS schema "properties" = none →
        ∃ it, lookupS schema "items" = some it ∧ getTemplate fuel it = .ok elem) := by
  have hne : ¬ lookupS schema "type" = some (.val (.str "object")) := by
    rw [htype]; simp
  simp only [getTemplate] at hok
  rw [if_neg hne, if_pos htype] at hok
  split at hok
  · rename_i props1 heq
    split at hok
    · rename_i es heq2
      injection hok with h
      subst h
      refine ⟨.obj es, rfl, ?_, ?_⟩
      · intro props2 hp2
        rw [heq] at hp2
        simp only [Option.some.injEq, SVal.node.injEq] at hp2
        subst hp2
        refine ⟨es, rfl, ?_, ?_⟩
        · exact arrayInline_mem heq2
        · intro rs hrs
          rw [hrs] at heq2
          exact arrayInline_required_keys heq2
      · intro h0
        rw [heq] at h0
        simp at h0
    · simp at hok
  · rename_i dv heq
    simp at hok
  · rename_i heq
    split at hok
    · rename_i it heq2
      split at hok
      · rename_i v heq3
        injection hok with h
        subst h
        refine ⟨v, rfl, ?_, fun _ => ⟨it, heq2, heq3⟩⟩
        intro props2 hp2
        rw [heq] at hp2
        simp at hp2
      · simp at hok
    · simp at hok

/-- Witness for C8 at a concrete inline-properties array schema: the
element carries exactly the required inline property. -/
theorem getTemplate_array_shape_witness :
    ∃ elem, (Doc.list [.obj [("bbox", .num 0)]] : Doc) = .list [elem] ∧
      ((∀ props, lookupS (.node [("type", .val (.str "array")),
          ("required", .val (.list [.str "bbox"])),
          ("properties", .node [("bbox", .node [("type", .val (.str "number"))]),
                                ("crs", .node [("type", .val (.str "string"))])])])
          "properties" = some (.node props) →
        ∃ es, elem = .obj es ∧
          (∀ k v, (k, v) ∈ es → ∃ sch, (k, sch) ∈ props ∧
            getTemplate 8 sch = .ok v) ∧
          (∀ rs, lookupS (.node [("type", .val (.str "array")),
              ("required", .val (.list [.str "bbox"])),
              ("properties", .node [("bbox", .node [("type", .val (.str "number"))]),
                                    ("crs", .node [("type", .val (.str "string"))])])])
              "required" = some (.val (.list rs)) →
            es.map Prod.fst =
              (props.filter (fun pr => rs.contains (Doc.str pr.1))).map Prod.fst))) ∧
      (lookupS (.node [("type", .val (.str "array")),
          ("required", .val (.list [.str "bbox"])),
          ("properties", .node [("bbox", .node [("type", .val (.str "number"))]),
                                ("crs", .node [("type", .val (.str "string"))])])])
          "properties" = none →
        ∃ it, lookupS (.node [("type", .val (.str "array")),
            ("required", .val (.list [.str "bbox"])),
            ("properties", .node [("bbox", .node [("type", .val (.str "number"))]),
                                  ("crs", .node [("type", .val (.str "string"))])])])
            "items" = some it ∧ getTemplate 8 it = .ok elem) :=
  getTemplate_array_shape 8 _ _ (by decide) (by decide)

/-- C10: an object schema that declares no required entry synthesizes every
one of its declared properties, in declaration order; the required-only
skeleton applies only when a required entry exists. -/
theorem getTemplate_object_no_required (fuel : Nat) (schema : SVal) (d : Doc)
    (props : List (String × SVal))
    (htype : lookupS schema "type" = some (.val (.str "object")))
    (hreq : lookupS schema "required" = none)
    (hp : lookupS schema "properties" = some (.node props))
    (hok : getTemplate (fuel + 1) schema = .ok d) :
    ∃ tes, d = .obj tes ∧ tes.map Prod.fst = props.map Prod.fst ∧
      ∀ k v, (k, v) ∈ tes → ∃ sch, (k, sch) ∈ props ∧
        templateEntry (getTemplate fuel) sch = .ok v := by
  simp only [getTemplate] at hok
  rw [if_pos htype] at hok
  split at hok
  · rename_i props1 heq
    rw [hp] at heq
    simp only [Option.some.injEq, SVal.node.injEq] at heq
    subst heq
    split at hok
    · rename_i tes heq2
      injection hok with h
      subst h
      rw [hreq] at heq2
      obtain ⟨hkeys, hmem⟩ := templateProps_none heq2
      exact ⟨tes, rfl, hkeys, hmem⟩
    · simp at hok
  · rename_i dv heq
    rw [hp] at heq
    simp at heq
  · rename_i heq
    rw [hp] at heq
    simp at heq

/-- Witness for C10 at a concrete object schema with two properties and no
required entry: both properties appear in the template. -/
theorem getTemplate_object_no_required_witness :
    ∃ tes, (Doc.obj [("a", .str ""), ("b", .int 0)] : Doc) = .obj tes ∧
      tes.map Prod.fst = ([("a", SVal.node [("type", SVal.val (.str "string"))]),
        ("b", SVal.node [("type", SVal.val (.str "integer"))])].map Prod.fst) ∧
      ∀ k v, (k, v) ∈ tes →
        ∃ sch, (k, sch) ∈ [("a", SVal.node [("type", SVal.val (.str "string"))]),
          ("b", SVal.node [("type", SVal.val (.str "integer"))])] ∧
          templateEntry (getTemplate 8) sch = .ok v :=
  getTemplate_object_no_required 8
    (.node [("type", .val (.str "object")),
      ("properties", .node [("a", .node [("type", .val (.str "string"))]),
                            ("b", .node [("type", .val (.str "integer"))])])])
    _ _ (by decide) (by decide) (by decide) (by decide)

/-! Claim C1: templates validate against well-formed schemas. -/

theorem valAnyOf_cons_skip {v : Doc → SVal → Bool} {p : String} {vp : Doc}
    {res : List (String × Doc)} {rest : List (String × SVal)}
    (hnot : ∀ q s, (q, s) ∈ rest → q ≠ p) :
    valAnyOf v ((p, vp) :: res) rest = valAnyOf v res rest := by
  induction rest with
  | nil => rfl
  | cons hd tl ih =>
    obtain ⟨q, s⟩ := hd
    have hq : (q == p) = false := by
      simpa using hnot q s (List.mem_cons_self _ _)
    simp only [valAnyOf, List.lookup, hq]
    rw [ih (fun q' s' h' => hnot q' s' (List.mem_cons_of_mem _ h'))]

theorem templateAnyOf_valid {f : SVal → Except SchemaErr Doc}
    {w : SVal → Bool} {v : Doc → SVal → Bool}
    (H : ∀ s d, w s = true → f s = .ok d → v d s = true) :
    ∀ {aes : List (String × SVal)} {tes : List (String × Doc)},
      (aes.map Prod.fst).Nodup → wfAnyOf w aes = true →
      templateAnyOf f aes = .ok tes → valAnyOf v tes aes = true := by
  intro aes
  induction aes with
  | nil =>
    intro tes _ _ h
    simp only [templateAnyOf, Except.ok.injEq] at h
    subst h
    rfl
  | cons hd rest ih =>
    intro tes hnd hwa h
    obtain ⟨p, s⟩ := hd
    simp only [templateAnyOf] at h
    simp only [wfAnyOf, Bool.and_eq_true] at hwa
    obtain ⟨hws, hwrest⟩ := hwa
    simp only [List.map_cons, List.nodup_cons] at hnd
    obtain ⟨hp, hndrest⟩ := hnd
    cases hf : f s with
    | error e => rw [hf] at h; simp at h
    | ok vp =>
      rw [hf] at h
      cases hta : templateAnyOf f rest with
      | error e => rw [hta] at h; simp at h
      | ok res =>
        rw [hta] at h
        simp only [Except.ok.injEq] at h
        subst h
        simp only [valAnyOf, List.lookup, beq_self_eq_true]
        rw [Bool.and_eq_true]
        constructor
        · exact H s vp hws hf
        · rw [valAnyOf_cons_skip (fun q s' h' hqp => by
            exact hp (hqp ▸ (List.mem_map.mpr ⟨(q, s'), h', rfl⟩)))]
          exact ih hndrest hwrest hta

theorem wfProps_none_mem {w : SVal → Bool} :
    ∀ {props : List (String × SVal)}, wfProps w none props = true →
      ∀ k sch, (k, sch) ∈ props → w sch = true := by
  intro props
  induction props with
  | nil => intro _ k sch h; simp at h
  | cons hd rest ih =>
    intro h k sch hmem
    obtain ⟨p, s⟩ := hd
    simp only [wfProps, Bool.and_eq_true] at h
    obtain ⟨h1, h2⟩ := h
    rcases List.mem_cons.mp hmem with he | hm
    · rw [Prod.mk.injEq] at he
      obtain ⟨rfl, rfl⟩ := he
      exact h1
    · exact ih h2 k sch hm

theorem wfProps_some_mem {w : SVal → Bool} {r : SVal} :
    ∀ {props : List (String × SVal)}, wfProps w (some r) props = true →
      ∀ k sch, (k, sch) ∈ props → requiredContains r k = .ok true →
        w sch = true := by
  intro props
  induction props with
  | nil => intro _ k sch h; simp at h
  | cons hd rest ih =>
    intro h k sch hmem hrc
    obtain ⟨p, s⟩ := hd
    simp only [wfProps, Bool.and_eq_true] at h
    obtain ⟨h1, h2⟩ := h
    rcases List.mem_cons.mp hmem with he | hm
    · rw [Prod.mk.injEq] at he
      obtain ⟨rfl, rfl⟩ := he
      rw [hrc] at h1
      exact h1
    · exact ih h2 k sch hm hrc

theorem wfInline_some_mem {w : SVal → Bool} {r : SVal} :
    ∀ {props : List (String × SVal)}, wfInline w (some r) props = true →
      ∀ k sch, (k, sch) ∈ props → requiredContains r k = .ok true →
        w sch = true := by
  intro props
  induction props with
  | nil => intro _ k sch h; simp at h
  | cons hd rest ih =>
    intro h k sch hmem hrc
    obtain ⟨p, s⟩ := hd
    simp only [wfInline, Bool.and_eq_true] at h
    obtain ⟨h1, h2⟩ := h
    rcases List.mem_cons.mp hmem with he | hm
    · rw [Prod.mk.injEq] at he
      obtain ⟨rfl, rfl⟩ := he
      rw [hrc] at h1
      exact h1
    · exact ih h2 k sch hm hrc

theorem valEntries_of_mem {v : Doc → SVal → Bool}
    {props : List (String × SVal)} :
    ∀ {kvs : List (String × Doc)},
      (∀ k d, (k, d) ∈ kvs → ∀ sch, props.lookup k = some sch →
        valChild v d sch = true) →
      valEntries v kvs props = true := by
  intro kvs
  induction kvs with
  | nil => intro _; rfl
  | cons hd rest ih =>
    intro h
    obtain ⟨k, d⟩ := hd
    simp only [valEntries, Bool.and_eq_true]
    constructor
    · cases hl : props.lookup k with
      | none => rfl
      | some sch => exact h k d (List.mem_cons_self _ _) sch hl
    · exact ih (fun k' d' hm sch hl => h k' d' (List.mem_cons_of_mem _ hm) sch hl)

theorem valInlineKvs_of_mem {v : Doc → SVal → Bool}
    {props : List (String × SVal)} {rs : List Doc} :
    ∀ {kvs : List (String × Doc)},
      (∀ k d, (k, d) ∈ kvs → ∀ sch, props.lookup k = some sch →
        rs.contains (Doc.str k) = true → v d sch = true) →
      valInlineKvs v kvs props rs = true := by
  intro kvs
  induction kvs with
  | nil => intro _; rfl
  | cons hd rest ih =>
    intro h
    obtain ⟨k, d⟩ := hd
    simp only [valInlineKvs, Bool.and_eq_true]
    constructor
    · cases hl : props.lookup k with
      | none => rfl
      | some sch =>
        cases hc : rs.contains (Doc.str k) with
        | false => simp [hc]
        | true => simpa [hc] using h k d (List.mem_cons_self _ _) sch hl hc
    · exact ih (fun k' d' hm sch hl hc => h k' d' (List.mem_cons_of_mem _ hm) sch hl hc)

theorem required_all_present {props : List (String × SVal)} {rs : List Doc}
    {tes : List (String × Doc)}
    (hkeys : tes.map Prod.fst =
      (props.filter (fun pr => rs.contains (Doc.str pr.1))).map Prod.fst)
    (hall : rs.all (fun rv => match rv with
      | .str r => decide (props.lookup r ≠ none)
      | _ => false) = true) :
    rs.all (fun rv => match rv with
      | .str r => tes.any (fun kv => kv.1 = r)
      | _ => false) = true := by
  rw [List.all_eq_true] at hall ⊢
  intro rv hrv
  have h1 := hall rv hrv
  cases rv with
  | str r =>
    have h2 : props.lookup r ≠ none := by simpa using h1
    obtain ⟨sch, hl⟩ := Option.ne_none_iff_exists.mp h2
    have hmem : (r, sch) ∈ props := lookup_mem hl.symm
    have hkmem : r ∈ tes.map Prod.fst := by
      rw [hkeys]
      exact List.mem_map.mpr ⟨(r, sch),
        List.mem_filter.mpr ⟨hmem, by simpa using hrv⟩, rfl⟩
    obtain ⟨kv, hin, hfst⟩ := List.mem_map.mp hkmem
    show tes.any (fun kv => kv.1 = r) = true
    rw [List.any_eq_true]
    exact ⟨kv, hin, by simp [hfst]⟩
  | null => simp at h1
  | int n => simp at h1
  | num q => simp at h1
  | bool b => simp at h1
  | list l => simp at h1
  | obj kvs => simp at h1

theorem templateEntryTail_valid {f : SVal → Except SchemaErr Doc}
    {w : SVal → Bool} {v : Doc → SVal → Bool}
    (H : ∀ s d, w s = true → f s = .ok d → v d s = true)
    {sch2 : SVal} {d : Doc}
    (hw : wfEntryTail w sch2 = true) (hok : templateEntryTail f sch2 = .ok d) :
    valChildTail v d sch2 = true := by
  unfold templateEntryTail at hok
  unfold wfEntryTail at hw
  unfold valChildTail
  revert hok hw
  cases hp : lookupS sch2 "properties" with
  | none =>
    intro hw hok
    exact H _ _ hw hok
  | some pv =>
    cases pv with
    | val dv =>
      intro hw hok
      exact H _ _ hw hok
    | node ps =>
      show ((match ps.lookup "anyOf" with
          | some (.node aes) => decide ((aes.map Prod.fst).Nodup) && wfAnyOf w aes
          | some (.val _) => true
          | none => w sch2) = true) →
        ((match ps.lookup "anyOf" with
          | some (.node aes) =>
            match templateAnyOf f aes with
            | .ok tes => (.ok (.obj tes) : Except SchemaErr Doc)
            | .error e => .error e
          | some (.val _) => .error .notADict
          | none => f sch2) = .ok d) →
        (match ps.lookup "anyOf" with
          | some (.node aes) =>
            (match d with
             | .obj kvs => valAnyOf v kvs aes
             | _ => false)
          | some (.val _) => false
          | none => v d sch2) = true
      cases ha : ps.lookup "anyOf" with
      | none =>
        intro hw2 hok2
        exact H _ _ hw2 hok2
      | some av =>
        cases av with
        | val dv2 =>
          intro hw2 hok2
          simp at hok2
        | node aes =>
          intro hw2 hok2
          revert hok2
          show ((match templateAnyOf f aes with
            | .ok tes => (.ok (.obj tes) : Except SchemaErr Doc)
            | .error e => .error e) = .ok d) →
            (match d with
             | .obj kvs => valAnyOf v kvs aes
             | _ => false) = true
          cases hta : templateAnyOf f aes with
          | error e =>
            intro hok2
            simp at hok2
          | ok tes =>
            intro hok2
            have h4 : (.ok (.obj tes) : Except SchemaErr Doc) = .ok d := hok2
            injection h4 with h4
            subst h4
            rw [Bool.and_eq_true] at hw2
            obtain ⟨hnd, hwa⟩ := hw2
            show valAnyOf v tes aes = true
            exact templateAnyOf_valid H (by simpa using hnd) hwa hta

theorem templateEntry_valid {f : SVal → Except SchemaErr Doc}
    {w : SVal → Bool} {v : Doc → SVal → Bool}
    (H : ∀ s d, w s = true → f s = .ok d → v d s = true)
    {sch : SVal} {d : Doc}
    (hw : wfEntry w sch = true) (hok : templateEntry f sch = .ok d) :
    valChild v d sch = true := by
  unfold templateEntry at hok
  unfold wfEntry at hw
  unfold valChild
  revert hok hw
  cases hpp : lookupS sch "patternProperties" with
  | none =>
    intro hw hok
    exact templateEntryTail_valid H hw hok
  | some pv =>
    cases pv with
    | val dv =>
      intro hw hok
      simp at hok
    | node pes =>
      show ((match pes.lookup "^.*" with
          | some inner => wfEntryTail w (exampleSch inner)
          | none => true) = true) →
        ((match pes.lookup "^.*" with
          | some inner => templateEntryTail f (exampleSch inner)
          | none => (.error (.missingKey "^.*") : Except SchemaErr Doc)) = .ok d) →
        (match pes.lookup "^.*" with
          | some inner => valChildTail v d (exampleSch inner)
          | none => false) = true
      cases hstar : pes.lookup "^.*" with
      | none =>
        intro hw2 hok2
        simp at hok2
      | some inner =>
        intro hw2 hok2
        exact templateEntryTail_valid H hw2 hok2

/-- C1 (amended): over well-formed schemas — unique property names,
required entries listing declared property names, enums given as value
lists, scalar type tags and references drawn from the recognized names —
every successfully synthesized template validates against its schema.  The
unrestricted claim fails: nothing ties a required entry to the declared
properties, and a required name without a matching property is synthesized
as nothing yet demanded by validation (see the counterexample). -/
theorem getTemplate_validates : ∀ (fuel : Nat) (s : SVal) (d : Doc),
    schemaWF fuel s = true → getTemplate fuel s = .ok d →
    validateDoc fuel d s = true := by
  intro fuel
  induction fuel with
  | zero =>
    intro s d hw _
    simp [schemaWF] at hw
  | succ fuel ih =>
    intro s d hw hok
    simp only [schemaWF] at hw
    simp only [getTemplate] at hok
    simp only [validateDoc]
    split at hw
    · rename_i htype
      rw [if_pos htype] at hok ⊢
      revert hok
      revert hw
      cases hprop : lookupS s "properties" with
      | none =>
        intro hw hok
        simp at hw
      | some pv =>
        cases pv with
        | val dv =>
          intro hw hok
          simp at hw
        | node props =>
          show ((decide ((props.map Prod.fst).Nodup) &&
              (match lookupS s "required" with
                | none => true
                | some (.val (.list rs)) =>
                  rs.all (fun rv => match rv with
                    | .str r => decide (props.lookup r ≠ none)
                    | _ => false)
                | some _ => false) &&
              wfProps (fun sch => wfEntry (schemaWF fuel) sch)
                (lookupS s "required") props) = true) →
            ((match templateProps (getTemplate fuel) (lookupS s "required") props with
              | .ok tes => (.ok (.obj tes) : Except SchemaErr Doc)
              | .error e => .error e) = .ok d) →
            (match d with
             | .obj kvs =>
               (match lookupS s "required" with
                | none => true
                | some (.val (.list rs)) =>
                  rs.all (fun rv => match rv with
                    | .str r => kvs.any (fun kv => kv.1 = r)
                    | _ => false)
                | some _ => false) &&
               valEntries (validateDoc fuel) kvs props
             | _ => false) = true
          cases hreqL : lookupS s "required" with
          | none =>
            intro hw hok
            rw [Bool.and_eq_true, Bool.and_eq_true] at hw
            obtain ⟨⟨hnd, -⟩, hwp⟩ := hw
            revert hok
            cases htp : templateProps (getTemplate fuel) none props with
            | error e =>
              intro hok
              simp at hok
            | ok tes =>
              intro hok
              have h4 : (.ok (.obj tes) : Except SchemaErr Doc) = .ok d := hok
              injection h4 with h4
              subst h4
              show (true && valEntries (validateDoc fuel) tes props) = true
              rw [Bool.true_and]
              apply valEntries_of_mem
              intro k dv hmemtes sch hlk
              obtain ⟨-, hmemlem⟩ := templateProps_none htp
              obtain ⟨sch2, hmem2, hE⟩ := hmemlem k dv hmemtes
              have hnd2 : (props.map Prod.fst).Nodup := by simpa using hnd
              have hlk2 := mem_lookup_of_nodup hnd2 hmem2
              rw [hlk] at hlk2
              injection hlk2 with hlk2
              subst hlk2
              have hwf := wfProps_none_mem hwp k sch hmem2
              exact templateEntry_valid ih hwf hE
          | some rv =>
            cases rv with
            | node es2 =>
              intro hw hok
              rw [Bool.and_eq_true, Bool.and_eq_true] at hw
              obtain ⟨⟨-, hreq⟩, -⟩ := hw
              simp at hreq
            | val dv2 =>
              cases dv2 with
              | list rs =>
                intro hw hok
                rw [Bool.and_eq_true, Bool.and_eq_true] at hw
                obtain ⟨⟨hnd, hreq⟩, hwp⟩ := hw
                have hreq2 : rs.all (fun rv => match rv with
                    | .str r => decide (props.lookup r ≠ none)
                    | _ => false) = true := hreq
                revert hok
                cases htp : templateProps (getTemplate fuel)
                    (some (.val (.list rs))) props with
                | error e =>
                  intro hok
                  simp at hok
                | ok tes =>
                  intro hok
                  have h4 : (.ok (.obj tes) : Except SchemaErr Doc) = .ok d := hok
                  injection h4 with h4
                  subst h4
                  obtain ⟨hkeys, hmemlem⟩ := templateProps_required_list htp
                  show ((rs.all (fun rv => match rv with
                      | .str r => tes.any (fun kv => kv.1 = r)
                      | _ => false)) &&
                    valEntries (validateDoc fuel) tes props) = true
                  rw [Bool.and_eq_true]
                  constructor
                  · exact required_all_present hkeys hreq2
                  · apply valEntries_of_mem
                    intro k dv hmemtes sch hlk
                    obtain ⟨sch2, hmem2, hcont, hE⟩ := hmemlem k dv hmemtes
                    have hnd2 : (props.map Prod.fst).Nodup := by simpa using hnd
                    have hlk2 := mem_lookup_of_nodup hnd2 hmem2
                    rw [hlk] at hlk2
                    injection hlk2 with hlk2
                    subst hlk2
                    have hrc : requiredContains (.val (.list rs)) k = .ok true := by
                      simp only [requiredContains, hcont]
                    have hwf := wfProps_some_mem hwp k sch hmem2 hrc
                    exact templateEntry_valid ih hwf hE
              | null =>
                intro hw hok
                rw [Bool.and_eq_true, Bool.and_eq_true] at hw
                obtain ⟨⟨-, hreq⟩, -⟩ := hw
                simp at hreq
              | bool b =>
                intro hw hok
                rw [Bool.and_eq_true, Bool.and_eq_true] at hw
                obtain ⟨⟨-, hreq⟩, -⟩ := hw
                simp at hreq
              | str s2 =>
                intro hw hok
                rw [Bool.and_eq_true, Bool.and_eq_true] at hw
                obtain ⟨⟨-, hreq⟩, -⟩ := hw
                simp at hreq
              | int n =>
                intro hw hok
                rw [Bool.and_eq_true, Bool.and_eq_true] at hw
                obtain ⟨⟨-, hreq⟩, -⟩ := hw
                simp at hreq
              | num q =>
                intro hw hok
                rw [Bool.and_eq_true, Bool.and_eq_true] at hw
                obtain ⟨⟨-, hreq⟩, -⟩ := hw
                simp at hreq
              | obj kvs2 =>
                intro hw hok
                rw [Bool.and_eq_true, Bool.and_eq_true] at hw
                obtain ⟨⟨-, hreq⟩, -⟩ := hw
                simp at hreq
    · rename_i hno
      split at hw
      · rename_i htype
        rw [if_neg hno, if_pos htype] at hok ⊢
        revert hok
        revert hw
        cases hprop : lookupS s "properties" with
        | some pv =>
          cases pv with
          | val dv =>
            intro hw hok
            simp at hw
          | node props =>
            show ((decide ((props.map Prod.fst).Nodup) &&
                (match lookupS s "required" with
                  | some (.val (.list rs)) =>
                    rs.all (fun rv => match rv with
                      | .str r => decide (props.lookup r ≠ none)
                      | _ => false)
                  | _ => false) &&
                wfInline (schemaWF fuel) (lookupS s "required") props) = true) →
              ((match arrayInline (getTemplate fuel) (lookupS s "required") props with
                | .ok es => (.ok (.list [.obj es]) : Except SchemaErr Doc)
                | .error e => .error e) = .ok d) →
              (match d with
               | .list xs =>
                 (match lookupS s "required" with
                  | some (.val (.list rs)) =>
                    valInlineElems (validateDoc fuel) xs props rs
                  | _ => false)
               | _ => false) = true
            cases hreqL : lookupS s "required" with
            | none =>
              intro hw hok
              rw [Bool.and_eq_true, Bool.and_eq_true] at hw
              obtain ⟨⟨-, hreq⟩, -⟩ := hw
              simp at hreq
            | some rv =>
              cases rv with
              | node es2 =>
                intro hw hok
                rw [Bool.and_eq_true, Bool.and_eq_true] at hw
                obtain ⟨⟨-, hreq⟩, -⟩ := hw
                simp at hreq
              | val dv2 =>
                cases dv2 with
                | list rs =>
                  intro hw hok
                  rw [Bool.and_eq_true, Bool.and_eq_true] at hw
                  obtain ⟨⟨hnd, hreq⟩, hwi⟩ := hw
                  have hreq2 : rs.all (fun rv => match rv with
                      | .str r => decide (props.lookup r ≠ none)
                      | _ => false) = true := hreq
                  revert hok
                  cases hai : arrayInline (getTemplate fuel)
                      (some (.val (.list rs))) props with
                  | error e =>
                    intro hok
                    simp at hok
                  | ok es =>
                    intro hok
                    have h4 : (.ok (.list [.obj es]) : Except SchemaErr Doc) = .ok d := hok
                    injection h4 with h4
                    subst h4
                    show ((rs.all (fun rv => match rv with
                        | .str r => es.any (fun kv => kv.1 = r)
                        | _ => false) &&
                      valInlineKvs (validateDoc fuel) es props rs) && true) = true
                    rw [Bool.and_eq_true, Bool.and_eq_true]
                    refine ⟨⟨?_, ?_⟩, rfl⟩
                    · exact required_all_present (arrayInline_required_keys hai) hreq2
                    · apply valInlineKvs_of_mem
                      intro k dv hmemes sch hlk hcont
                      obtain ⟨sch2, hmem2, hE⟩ := arrayInline_mem hai k dv hmemes
                      have hnd2 : (props.map Prod.fst).Nodup := by simpa using hnd
                      have hlk2 := mem_lookup_of_nodup hnd2 hmem2
                      rw [hlk] at hlk2
                      injection hlk2 with hlk2
                      subst hlk2
                      have hrc : requiredContains (.val (.list rs)) k = .ok true := by
                        simp only [requiredContains, hcont]
                      have hwf := wfInline_some_mem hwi k sch hmem2 hrc
                      exact ih sch dv hwf hE
                | null =>
                  intro hw hok
                  rw [Bool.and_eq_true, Bool.and_eq_true] at hw
                  obtain ⟨⟨-, hreq⟩, -⟩ := hw
                  simp at hreq
                | bool b =>
                  intro hw hok
                  rw [Bool.and_eq_true, Bool.and_eq_true] at hw
                  obtain ⟨⟨-, hreq⟩, -⟩ := hw
                  simp at hreq
                | str s2 =>
                  intro hw hok
                  rw [Bool.and_eq_true, Bool.and_eq_true] at hw
                  obtain ⟨⟨-, hreq⟩, -⟩ := hw
                  simp at hreq
                | int n =>
                  intro hw hok
                  rw [Bool.and_eq_true, Bool.and_eq_true] at hw
                  obtain ⟨⟨-, hreq⟩, -⟩ := hw
                  simp at hreq
                | num q =>
                  intro hw hok
                  rw [Bool.and_eq_true, Bool.and_eq_true] at hw
                  obtain ⟨⟨-, hreq⟩, -⟩ := hw
                  simp at hreq
                | obj kvs2 =>
                  intro hw hok
                  rw [Bool.and_eq_true, Bool.and_eq_true] at hw
                  obtain ⟨⟨-, hreq⟩, -⟩ := hw
                  simp at hreq
        | none =>
          show ((match lookupS s "items" with
              | some it => schemaWF fuel it
              | none => true) = true) →
            ((match lookupS s "items" with
              | some it =>
                match getTemplate fuel it with
                | .ok v => (.ok (.list [v]) : Except SchemaErr Doc)
                | .error e => .error e
              | none => (.error (.missingKey "items") : Except SchemaErr Doc)) = .ok d) →
            (match d with
             | .list xs =>
               (match lookupS s "items" with
                | some it => valItems (validateDoc fuel) xs it
                | none => true)
             | _ => false) = true
          cases hit : lookupS s "items" with
          | none =>
            intro hw hok
            simp at hok
          | some it =>
            intro hw hok
            have hw2 : schemaWF fuel it = true := hw
            have hok2 : (match getTemplate fuel it with
              | .ok v => (.ok (.list [v]) : Except SchemaErr Doc)
              | .error e => .error e) = .ok d := hok
            clear hok hw
            revert hok2
            cases hgt : getTemplate fuel it with
            | error e =>
              intro hok2
              simp at hok2
            | ok v =>
              intro hok2
              have h4 : (.ok (.list [v]) : Except SchemaErr Doc) = .ok d := hok2
              injection h4 with h4
              subst h4
              show (validateDoc fuel v it && true) = true
              rw [Bool.and_eq_true]
              exact ⟨ih it v hw2 hgt, rfl⟩
      · rename_i hnoarr
        rw [if_neg hno, if_neg hnoarr] at hok ⊢
        unfold getDefault at hok
        revert hok
        revert hw
        cases henum : lookupS s "enum" with
        | some e =>
          cases e with
          | node es2 =>
            intro hw hok
            simp at hw
          | val dv =>
            cases dv with
            | list vs =>
              cases vs with
              | nil =>
                intro hw hok
                simp [enumFirst] at hok
              | cons x xs =>
                intro hw hok
                have h5 : (.ok x : Except SchemaErr Doc) = .ok d := hok
                injection h5 with h5
                subst h5
                show (x :: xs).contains x = true
                simp
            | null =>
              intro hw hok
              simp at hw
            | bool b =>
              intro hw hok
              simp at hw
            | str s2 =>
              intro hw hok
              simp at hw
            | int n =>
              intro hw hok
              simp at hw
            | num q =>
              intro hw hok
              simp at hw
            | obj kvs2 =>
              intro hw hok
              simp at hw
        | none =>
          intro hw hok
          have hok2 : typeRefDefault s = .ok d := hok
          clear hok
          have hw2 : (match lookupS s "type" with
            | some (.val (.str t)) =>
              decide (t = "string" ∨ t = "integer" ∨ t = "number" ∨ t = "boolean")
            | some _ => false
            | none =>
              match lookupS s "$ref" with
              | some (.val (.str u)) =>
                decide (u = "#/definitions/date_or_datetime_string" ∨
                  u = "#/definitions/i18n_string" ∨
                  u = "#/definitions/i18n_array" ∨
                  u = "#/definitions/any_type")
              | some _ => true
              | none => true) = true := hw
          clear hw
          unfold typeRefDefault at hok2
          revert hok2
          show ((match lookupS s "type" with
              | some t => defaultValues t
              | none =>
                match lookupS s "$ref" with
                | some t => defaultValues t
                | none => (.error .noTypeNoRef : Except SchemaErr Doc)) = .ok d) →
            (match lookupS s "type" with
              | some (.val (.str "string")) => d.isStr
              | some (.val (.str "integer")) => d.isInt
              | some (.val (.str "number")) => d.isNumber
              | some (.val (.str "boolean")) => d.isBool
              | some _ => false
              | none =>
                match lookupS s "$ref" with
                | some (.val (.str "#/definitions/date_or_datetime_string")) => d.isStr
                | some (.val (.str "#/definitions/i18n_string")) => d.isStr
                | some (.val (.str "#/definitions/i18n_array")) => d.isList
                | some (.val (.str "#/definitions/any_type")) => true
                | some _ => false
                | none => false) = true
          revert hw2
          cases hty : lookupS s "type" with
          | some t =>
            cases t with
            | node es2 =>
              intro hw hok
              simp at hw
            | val dv =>
              cases dv with
              | str tn =>
                intro hw hok
                have hw2 : tn = "string" ∨ tn = "integer" ∨ tn = "number" ∨
                    tn = "boolean" := by simpa using hw
                have hok2 : defaultValues (.val (.str tn)) = .ok d := hok
                rcases hw2 with rfl | rfl | rfl | rfl
                · have h5 : (.ok (.str "") : Except SchemaErr Doc) = .ok d := hok2
                  injection h5 with h5
                  subst h5
                  rfl
                · have h5 : (.ok (.int 0) : Except SchemaErr Doc) = .ok d := hok2
                  injection h5 with h5
                  subst h5
                  rfl
                · have h5 : (.ok (.num 0) : Except SchemaErr Doc) = .ok d := hok2
                  injection h5 with h5
                  subst h5
                  rfl
                · have h5 : (.ok (.bool false) : Except SchemaErr Doc) = .ok d := hok2
                  injection h5 with h5
                  subst h5
                  rfl
              | null =>
                intro hw hok
                simp at hw
              | bool b =>
                intro hw hok
                simp at hw
              | int n =>
                intro hw hok
                simp at hw
              | num q =>
                intro hw hok
                simp at hw
              | list l =>
                intro hw hok
                simp at hw
              | obj kvs2 =>
                intro hw hok
                simp at hw
          | none =>
            cases hrf : lookupS s "$ref" with
            | none =>
              intro hw hok
              simp at hok
            | some t =>
              cases t with
              | node es2 =>
                intro hw hok
                simp [defaultValues] at hok
              | val dv =>
                cases dv with
                | str u =>
                  intro hw hok
                  have hw2 : u = "#/definitions/date_or_datetime_string" ∨
                      u = "#/definitions/i18n_string" ∨
                      u = "#/definitions/i18n_array" ∨
                      u = "#/definitions/any_type" := by simpa using hw
                  have hok2 : defaultValues (.val (.str u)) = .ok d := hok
                  rcases hw2 with rfl | rfl | rfl | rfl
                  · have h5 : (.ok (.str "") : Except SchemaErr Doc) = .ok d := hok2
                    injection h5 with h5
                    subst h5
                    rfl
                  · have h5 : (.ok (.str "") : Except SchemaErr Doc) = .ok d := hok2
                    injection h5 with h5
                    subst h5
                    rfl
                  · have h5 : (.ok (.list []) : Except SchemaErr Doc) = .ok d := hok2
                    injection h5 with h5
                    subst h5
                    rfl
                  · rfl

                | null =>
                  intro hw hok
                  simp [defaultValues] at hok
                | bool b =>
                  intro hw hok
                  simp [defaultValues] at hok
                | int n =>
                  intro hw hok
                  simp [defaultValues] at hok
                | num q =>
                  intro hw hok
                  simp [defaultValues] at hok
                | list l =>
                  intro hw hok
                  simp [defaultValues] at hok
                | obj kvs2 =>
                  intro hw hok
                  simp [defaultValues] at hok

/-- Counterexample to C1 as stated: an object schema may declare a required
name with no matching declared property; _get_template only loops over the
declared properties, so it happily synthesizes a document that misses the
required name and fails validation. -/
theorem getTemplate_not_always_valid_cex :
    getTemplate 9 (SVal.node [("type", .val (.str "object")),
      ("required", .val (.list [.str "a"])),
      ("properties", .node [])]) = .ok (.obj []) ∧
    validateDoc 9 (.obj []) (SVal.node [("type", .val (.str "object")),
      ("required", .val (.list [.str "a"])),
      ("properties", .node [])]) = false := by
  decide

/-- Witness for C1's amended theorem at a concrete well-formed object
schema: the synthesized template validates. -/
theorem getTemplate_validates_witness :
    schemaWF 9 (SVal.node [("type", .val (.str "object")),
      ("required", .val (.list [.str "a"])),
      ("properties", .node [("a", .node [("type", .val (.str "string"))]),
                            ("b", .node [("type", .val (.str "integer"))])])]) = true ∧
    getTemplate 9 (SVal.node [("type", .val (.str "object")),
      ("required", .val (.list [.str "a"])),
      ("properties", .node [("a", .node [("type", .val (.str "string"))]),
                            ("b", .node [("type", .val (.str "integer"))])])]) =
      .ok (.obj [("a", .str "")]) ∧
    validateDoc 9 (.obj [("a", .str "")])
      (SVal.node [("type", .val (.str "object")),
        ("required", .val (.list [.str "a"])),
        ("properties", .node [("a", .node [("type", .val (.str "string"))]),
                              ("b", .node [("type", .val (.str "integer"))])])]) = true :=
  ⟨by decide, by decide, getTemplate_validates 9 _ _ (by decide) (by decide)⟩
end Geometamaker
